import Mathlib

/-!
Verification of the temperature telemetry pipeline (`temp_core`, `temp_store`,
`temp_embedded`, `temp_protocol` crates).

Modelling conventions:
* Rust `f32` values are modelled as exact rationals (`Rat`); `u8`/`u32`/`u64`/
  `usize` as `Nat`, with `% 2 ^ 32` written out where wrap-around matters.
* Rust `String`s are modelled as their UTF-8 byte sequences (`List Nat`),
  which is what both wire codecs operate on.
* Code that can panic (`Vec::remove` on an empty vector) is modelled with
  `Option`, `none` standing for the panic.
* `&mut self` methods become explicit state-passing functions.
-/

namespace TempSys

/-- Temperature value (`temp_core::Temperature`): a celsius scalar. -/
structure Temperature where
  celsius : Rat
deriving DecidableEq

/-- One stored measurement (`temp_store::TemperatureReading`). -/
structure TemperatureReading where
  temperature : Temperature
  timestamp : Nat
deriving DecidableEq

/-- Derived statistics (`temp_store::TemperatureStats`). -/
structure TemperatureStats where
  min : Temperature
  max : Temperature
  average : Temperature
  count : Nat
deriving DecidableEq

/-- The dynamic store (`temp_store::TemperatureStore`): the `Vec` of readings
guarded by the mutex, together with the fixed capacity. -/
structure TemperatureStore where
  capacity : Nat
  readings : List TemperatureReading
deriving DecidableEq

/-- `TemperatureStore::new(capacity)`. -/
def TemperatureStore.new (capacity : Nat) : TemperatureStore :=
  ⟨capacity, []⟩

/-- `TemperatureStore::add_reading`: if `len >= capacity`, `remove(0)` first,
then push.  `Vec::remove(0)` on an empty vector panics, which happens exactly
when the store is empty and the capacity is `0`; the panic is `none`. -/
def addReading (s : TemperatureStore) (r : TemperatureReading) :
    Option TemperatureStore :=
  if s.capacity ≤ s.readings.length then
    match s.readings with
    | [] => none
    | _ :: t => some ⟨s.capacity, t ++ [r]⟩
  else
    some ⟨s.capacity, s.readings ++ [r]⟩

/-- Run a sequence of `add_reading` calls left to right, `none` if any panics. -/
def runAdds (s : TemperatureStore) : List TemperatureReading → Option TemperatureStore
  | [] => some s
  | r :: rs =>
    match addReading s r with
    | none => none
    | some s' => runAdds s' rs

/-- The running-minimum fold of `calculate_stats` (`if temp < min_temp`). -/
def foldMin (a : Rat) (l : List Rat) : Rat :=
  l.foldl (fun acc t => if t < acc then t else acc) a

/-- The running-maximum fold of `calculate_stats` (`if temp > max_temp`). -/
def foldMax (a : Rat) (l : List Rat) : Rat :=
  l.foldl (fun acc t => if acc < t then t else acc) a

/-- The celsius values of the readings currently held, in order. -/
def temps (s : TemperatureStore) : List Rat :=
  s.readings.map (fun r => r.temperature.celsius)

/-- `TemperatureStore::calculate_stats`: `None` when empty; otherwise one
linear scan starting the running min/max at `readings[0]` and summing all
celsius values, average = sum / count. -/
def calculateStats (s : TemperatureStore) : Option TemperatureStats :=
  match s.readings with
  | [] => none
  | r0 :: rest =>
    let ts := (r0 :: rest).map (fun r => r.temperature.celsius)
    some ⟨⟨foldMin r0.temperature.celsius ts⟩,
          ⟨foldMax r0.temperature.celsius ts⟩,
          ⟨ts.foldl (· + ·) 0 / ((r0 :: rest).length : Rat)⟩,
          (r0 :: rest).length⟩

/-- `TemperatureStore::get_stats`: `calculate_stats` with a zeroed fallback. -/
def getStats (s : TemperatureStore) : TemperatureStats :=
  (calculateStats s).getD ⟨⟨0⟩, ⟨0⟩, ⟨0⟩, 0⟩

/-- `TemperatureStore::get_recent_readings`. -/
def getRecentReadings (s : TemperatureStore) (count : Nat) : List TemperatureReading :=
  s.readings.drop (if count < s.readings.length then s.readings.length - count else 0)

/-! ## Embedded store (`temp_embedded`) -/

/-- `temp_embedded::EmbeddedTemperatureReading` (`u32` timestamp). -/
structure EmbeddedTemperatureReading where
  temperature : Temperature
  timestamp : Nat
deriving DecidableEq

/-- `temp_embedded::EmbeddedTemperatureStore<N>` contents: the heapless `Vec`
plus the monotonic `u32` counter of readings ever seen. -/
structure EmbeddedTemperatureStore where
  readings : List EmbeddedTemperatureReading
  total_readings : Nat
deriving DecidableEq

/-- Outcome of `EmbeddedTemperatureStore::add_reading`: a panic (out-of-bounds
`remove`), the `Err("Storage full")` branch (which still keeps the mutations
made before the failing push), or success. -/
inductive EmbAddResult where
  | panicked
  | storageFull (st : EmbeddedTemperatureStore)
  | ok (st : EmbeddedTemperatureStore)
deriving DecidableEq

/-- `heapless::Vec::push`: fails iff the vector is already at capacity. -/
def embPush (N : Nat) (l : List EmbeddedTemperatureReading)
    (r : EmbeddedTemperatureReading) : Option (List EmbeddedTemperatureReading) :=
  if l.length < N then some (l ++ [r]) else none

/-- The `if self.readings.len() >= N { self.readings.remove(0) }` step of the
embedded `add_reading`; `none` is the out-of-bounds panic of `remove(0)`. -/
def embRemoveOldest (N : Nat) (l : List EmbeddedTemperatureReading) :
    Option (List EmbeddedTemperatureReading) :=
  if N ≤ l.length then
    match l with
    | [] => none
    | _ :: t => some t
  else some l

/-- `EmbeddedTemperatureStore::<N>::add_reading`: bump `total_readings` (a
`u32`, hence mod `2 ^ 32`), drop the oldest reading when full, then push. -/
def embAddReading (N : Nat) (st : EmbeddedTemperatureStore)
    (r : EmbeddedTemperatureReading) : EmbAddResult :=
  match embRemoveOldest N st.readings with
  | none => .panicked
  | some l =>
    match embPush N l r with
    | none => .storageFull ⟨l, (st.total_readings + 1) % 2 ^ 32⟩
    | some l' => .ok ⟨l', (st.total_readings + 1) % 2 ^ 32⟩

/-- Run a sequence of embedded `add_reading` calls; `none` unless every call
returns `Ok`. -/
def runEmbAdds (N : Nat) (st : EmbeddedTemperatureStore) :
    List EmbeddedTemperatureReading → Option EmbeddedTemperatureStore
  | [] => some st
  | r :: rs =>
    match embAddReading N st r with
    | .ok st' => runEmbAdds N st' rs
    | _ => none

/-! ## Fold lemmas for the statistics scan -/

theorem foldMin_spec (l : List Rat) : ∀ a : Rat,
    (foldMin a l = a ∨ foldMin a l ∈ l) ∧ foldMin a l ≤ a ∧
      ∀ t ∈ l, foldMin a l ≤ t := by
  induction l with
  | nil => intro a; simp [foldMin]
  | cons x xs ih =>
    intro a
    have h := ih (if x < a then x else a)
    have hstep : foldMin a (x :: xs) = foldMin (if x < a then x else a) xs := rfl
    refine ⟨?_, ?_, ?_⟩
    · rcases h.1 with h1 | h1
      · rw [hstep, h1]
        split
        · exact Or.inr (List.mem_cons_self _ _)
        · exact Or.inl rfl
      · exact Or.inr (List.mem_cons_of_mem _ (hstep ▸ h1))
    · rw [hstep]
      refine le_trans h.2.1 ?_
      split
      · exact le_of_lt (by assumption)
      · exact le_refl a
    · intro t ht
      rcases List.mem_cons.mp ht with rfl | ht
      · rw [hstep]
        refine le_trans h.2.1 ?_
        split
        · exact le_refl t
        · exact le_of_not_lt (by assumption)
      · exact hstep ▸ h.2.2 t ht

theorem foldMax_spec (l : List Rat) : ∀ a : Rat,
    (foldMax a l = a ∨ foldMax a l ∈ l) ∧ a ≤ foldMax a l ∧
      ∀ t ∈ l, t ≤ foldMax a l := by
  induction l with
  | nil => intro a; simp [foldMax]
  | cons x xs ih =>
    intro a
    have h := ih (if a < x then x else a)
    have hstep : foldMax a (x :: xs) = foldMax (if a < x then x else a) xs := rfl
    refine ⟨?_, ?_, ?_⟩
    · rcases h.1 with h1 | h1
      · rw [hstep, h1]
        split
        · exact Or.inr (List.mem_cons_self _ _)
        · exact Or.inl rfl
      · exact Or.inr (List.mem_cons_of_mem _ (hstep ▸ h1))
    · rw [hstep]
      refine le_trans ?_ h.2.1
      split
      · exact le_of_lt (by assumption)
      · exact le_refl a
    · intro t ht
      rcases List.mem_cons.mp ht with rfl | ht
      · rw [hstep]
        refine le_trans ?_ h.2.1
        split
        · exact le_refl t
        · exact le_of_not_lt (by assumption)
      · exact hstep ▸ h.2.2 t ht

theorem foldl_add_eq_sum (l : List Rat) : ∀ a : Rat, l.foldl (· + ·) a = a + l.sum := by
  induction l with
  | nil => intro a; simp
  | cons x xs ih =>
    intro a
    simp only [List.foldl_cons, List.sum_cons, ih (a + x)]
    ring

/-! ## C1 — FIFO eviction of the dynamic store -/

theorem runAdds_spec (rs : List TemperatureReading) :
    ∀ s : TemperatureStore, 1 ≤ s.capacity → s.readings.length ≤ s.capacity →
      runAdds s rs =
        some ⟨s.capacity,
          (s.readings ++ rs).drop ((s.readings ++ rs).length - s.capacity)⟩ := by
  induction rs with
  | nil =>
    intro s _ hlen
    simp only [runAdds, List.append_nil]
    have : s.readings.length - s.capacity = 0 := Nat.sub_eq_zero_of_le hlen
    rw [this, List.drop_zero]
  | cons r rs ih =>
    intro s hcap hlen
    by_cases hfull : s.capacity ≤ s.readings.length
    · have hexact : s.readings.length = s.capacity := le_antisymm hlen hfull
      match hs : s.readings with
      | [] =>
        rw [hs] at hexact
        simp only [List.length_nil] at hexact
        omega
      | x :: t =>
        rw [hs] at hexact
        simp only [List.length_cons] at hexact
        have hadd : addReading s r = some ⟨s.capacity, t ++ [r]⟩ := by
          unfold addReading
          rw [if_pos hfull, hs]
        have hlen' : (⟨s.capacity, t ++ [r]⟩ : TemperatureStore).readings.length ≤
            (⟨s.capacity, t ++ [r]⟩ : TemperatureStore).capacity := by
          simp only [List.length_append, List.length_cons, List.length_nil]
          omega
        have hrec := ih ⟨s.capacity, t ++ [r]⟩ hcap hlen'
        simp only [runAdds, hadd, hrec]
        have h1 : t ++ [r] ++ rs = t ++ r :: rs := by simp
        have h2 : x :: t ++ r :: rs = x :: (t ++ r :: rs) := rfl
        rw [h1, h2]
        have hlt : (x :: (t ++ r :: rs)).length - s.capacity =
            ((t ++ r :: rs).length - s.capacity) + 1 := by
          simp only [List.length_cons, List.length_append]
          omega
        rw [hlt, List.drop_succ_cons]
    · push_neg at hfull
      have hadd : addReading s r = some ⟨s.capacity, s.readings ++ [r]⟩ := by
        unfold addReading
        rw [if_neg (by omega)]
      have hlen' : (⟨s.capacity, s.readings ++ [r]⟩ : TemperatureStore).readings.length ≤
          (⟨s.capacity, s.readings ++ [r]⟩ : TemperatureStore).capacity := by
        simp only [List.length_append, List.length_cons, List.length_nil]
        omega
      have hrec := ih ⟨s.capacity, s.readings ++ [r]⟩ hcap hlen'
      simp only [runAdds, hadd, hrec]
      congr 2
      simp

/-- C1: for capacity `N ≥ 1` and more readings than capacity, a fresh store
ends with exactly the last `N` readings, in original relative order, and has
length `N`. -/
theorem store_holds_last_n_c1 (N : Nat) (rs : List TemperatureReading)
    (hN : 1 ≤ N) (hL : N < rs.length) :
    runAdds (TemperatureStore.new N) rs = some ⟨N, rs.drop (rs.length - N)⟩ ∧
      (rs.drop (rs.length - N)).length = N := by
  constructor
  · have := runAdds_spec rs (TemperatureStore.new N) hN (by simp [TemperatureStore.new])
    simpa [TemperatureStore.new] using this
  · rw [List.length_drop]
    omega

/-- A reading with the given celsius value and timestamp. -/
def mkR (x : Rat) (t : Nat) : TemperatureReading :=
  ⟨⟨x⟩, t⟩

/-- The scenario sequence 10, 20, 30, 40, 50. -/
def rs5 : List TemperatureReading :=
  [mkR 10 0, mkR 20 1, mkR 30 2, mkR 40 3, mkR 50 4]

/-- C1 witness: the capacity-3 scenario, ending with 30, 40, 50. -/
theorem store_holds_last_n_c1_witness :
    (runAdds (TemperatureStore.new 3) rs5 = some ⟨3, rs5.drop (rs5.length - 3)⟩ ∧
      (rs5.drop (rs5.length - 3)).length = 3) ∧
      runAdds (TemperatureStore.new 3) rs5 = some ⟨3, [mkR 30 2, mkR 40 3, mkR 50 4]⟩ :=
  ⟨store_holds_last_n_c1 3 rs5 (by decide) (by decide), by decide⟩

/-! ## C7 — `add_reading` totality claim -/

/-- C7 counterexample: with capacity `0`, the very first `add_reading` executes
`readings.remove(0)` on an empty vector, which panics — so `add_reading` is not
panic-free for every capacity "including N = 0". -/
theorem add_reading_capacity_zero_panics_c7 :
    addReading (TemperatureStore.new 0) (mkR 10 0) = none := rfl

/-- C7 (amended): for every store whose capacity is at least 1, `add_reading`
always succeeds — no error case and no panic. -/
theorem add_reading_total_c7 (s : TemperatureStore) (r : TemperatureReading)
    (h : 1 ≤ s.capacity) : (addReading s r).isSome = true := by
  unfold addReading
  match hs : s.readings with
  | [] =>
    rw [if_neg]
    · rfl
    · simp [hs]
      omega
  | x :: t =>
    split <;> simp

/-- C7 witness: a capacity-1 insertion succeeds. -/
theorem add_reading_total_c7_witness :
    (addReading (TemperatureStore.new 1) (mkR 10 0)).isSome = true :=
  add_reading_total_c7 (TemperatureStore.new 1) (mkR 10 0) (by decide)

/-! ## C2 — `calculate_stats` -/

/-- C2: `calculate_stats` returns `none` exactly on the empty store, and on a
non-empty store returns the minimum, maximum, arithmetic mean (sum of celsius
values divided by count) and count of the readings currently held. -/
theorem calculate_stats_c2 (s : TemperatureStore) (st : TemperatureStats) :
    (calculateStats s = none ↔ s.readings = []) ∧
    (calculateStats s = some st →
      (st.min.celsius ∈ temps s ∧ ∀ t ∈ temps s, st.min.celsius ≤ t) ∧
      (st.max.celsius ∈ temps s ∧ ∀ t ∈ temps s, t ≤ st.max.celsius) ∧
      st.average.celsius = (temps s).sum / (s.readings.length : Rat) ∧
      st.count = s.readings.length) := by
  constructor
  · constructor
    · intro h
      match hs : s.readings with
      | [] => rfl
      | r0 :: rest =>
        unfold calculateStats at h
        rw [hs] at h
        simp at h
    · intro h
      unfold calculateStats
      rw [h]
  · intro h
    match hs : s.readings with
    | [] =>
      unfold calculateStats at h
      rw [hs] at h
      simp at h
    | r0 :: rest =>
      unfold calculateStats at h
      rw [hs] at h
      simp only [Option.some.injEq] at h
      subst h
      have htemps : temps s = (r0 :: rest).map (fun r => r.temperature.celsius) := by
        unfold temps
        rw [hs]
      have hmem0 : r0.temperature.celsius ∈ temps s := by
        rw [htemps]
        exact List.mem_map_of_mem _ (List.mem_cons_self _ _)
      refine ⟨⟨?_, ?_⟩, ⟨?_, ?_⟩, ?_, ?_⟩
      · show foldMin r0.temperature.celsius
          ((r0 :: rest).map (fun r => r.temperature.celsius)) ∈ temps s
        have h1 := (foldMin_spec ((r0 :: rest).map (fun r => r.temperature.celsius))
          r0.temperature.celsius).1
        rcases h1 with h1 | h1
        · rw [h1]; exact hmem0
        · rw [htemps]; exact h1
      · intro t ht
        rw [htemps] at ht
        exact (foldMin_spec _ r0.temperature.celsius).2.2 t ht
      · show foldMax r0.temperature.celsius
          ((r0 :: rest).map (fun r => r.temperature.celsius)) ∈ temps s
        have h1 := (foldMax_spec ((r0 :: rest).map (fun r => r.temperature.celsius))
          r0.temperature.celsius).1
        rcases h1 with h1 | h1
        · rw [h1]; exact hmem0
        · rw [htemps]; exact h1
      · intro t ht
        rw [htemps] at ht
        exact (foldMax_spec _ r0.temperature.celsius).2.2 t ht
      · show ((r0 :: rest).map (fun r => r.temperature.celsius)).foldl (· + ·) 0 /
            (((r0 :: rest).length : Nat) : Rat) =
          (temps s).sum / (((r0 :: rest).length : Nat) : Rat)
        rw [htemps, foldl_add_eq_sum, zero_add]
      · rfl

/-- C2 witness: the 10…50 store has min 10, max 50, average 30, count 5. -/
theorem calculate_stats_c2_witness :
    ((10 : Rat) ∈ temps ⟨10, rs5⟩ ∧ ∀ t ∈ temps ⟨10, rs5⟩, (10 : Rat) ≤ t) ∧
    ((50 : Rat) ∈ temps ⟨10, rs5⟩ ∧ ∀ t ∈ temps ⟨10, rs5⟩, t ≤ (50 : Rat)) ∧
    (30 : Rat) = (temps ⟨10, rs5⟩).sum / ((⟨10, rs5⟩ : TemperatureStore).readings.length : Rat) ∧
    5 = (⟨10, rs5⟩ : TemperatureStore).readings.length :=
  (calculate_stats_c2 ⟨10, rs5⟩ ⟨⟨10⟩, ⟨50⟩, ⟨30⟩, 5⟩).2
    (by norm_num [calculateStats, rs5, mkR, foldMin, foldMax])

/-! ## C9 — embedded counter and occupancy -/

theorem embPush_ok (N : Nat) (l : List EmbeddedTemperatureReading)
    (r : EmbeddedTemperatureReading) (l' : List EmbeddedTemperatureReading)
    (h : embPush N l r = some l') : l'.length ≤ N := by
  unfold embPush at h
  split at h
  · simp only [Option.some.injEq] at h
    subst h
    simp only [List.length_append, List.length_cons, List.length_nil]
    omega
  · exact absurd h (by simp)

theorem embAddReading_ok (N : Nat) (st : EmbeddedTemperatureStore)
    (r : EmbeddedTemperatureReading) (st₁ : EmbeddedTemperatureStore)
    (h : embAddReading N st r = .ok st₁) :
    st₁.total_readings = (st.total_readings + 1) % 2 ^ 32 ∧
      st₁.readings.length ≤ N := by
  unfold embAddReading at h
  cases hrem : embRemoveOldest N st.readings with
  | none =>
    simp only [hrem] at h
    exact absurd h (by simp)
  | some l =>
    simp only [hrem] at h
    cases hp : embPush N l r with
    | none =>
      simp only [hp] at h
      exact absurd h (by simp)
    | some l' =>
      simp only [hp, EmbAddResult.ok.injEq] at h
      subst h
      exact ⟨rfl, embPush_ok N l r l' hp⟩

theorem runEmbAdds_spec (rs : List EmbeddedTemperatureReading) :
    ∀ (N : Nat) (st st' : EmbeddedTemperatureStore),
      runEmbAdds N st rs = some st' →
      st.total_readings < 2 ^ 32 →
      st'.total_readings = (st.total_readings + rs.length) % 2 ^ 32 ∧
      (st.readings.length ≤ N → st'.readings.length ≤ N) := by
  induction rs with
  | nil =>
    intro N st st' h hlt
    simp only [runEmbAdds, Option.some.injEq] at h
    subst h
    refine ⟨?_, fun h => h⟩
    simp only [List.length_nil, Nat.add_zero]
    exact (Nat.mod_eq_of_lt hlt).symm
  | cons r rs ih =>
    intro N st st' h hlt
    unfold runEmbAdds at h
    cases hstep : embAddReading N st r with
    | panicked => simp [hstep] at h
    | storageFull s1 => simp [hstep] at h
    | ok st₁ =>
      simp only [hstep] at h
      have hok := embAddReading_ok N st r st₁ hstep
      have hlt₁ : st₁.total_readings < 2 ^ 32 := by
        rw [hok.1]
        exact Nat.mod_lt _ (by norm_num)
      have hrec := ih N st₁ st' h hlt₁
      constructor
      · rw [hrec.1, hok.1, Nat.mod_add_mod]
        simp only [List.length_cons]
        ring_nf
      · intro _
        exact hrec.2 hok.2

/-- C9: after `k` successful `add_reading` calls on a fresh embedded store of
capacity `N`, the monotonic counter `total_readings` equals `k` (one increment
per insertion, independent of eviction) while the occupancy never exceeds `N`. -/
theorem embedded_counter_c9 (N : Nat) (rs : List EmbeddedTemperatureReading)
    (st' : EmbeddedTemperatureStore)
    (h : runEmbAdds N ⟨[], 0⟩ rs = some st') (hk : rs.length < 2 ^ 32) :
    st'.total_readings = rs.length ∧ st'.readings.length ≤ N := by
  have := runEmbAdds_spec rs N ⟨[], 0⟩ st' h (by norm_num)
  refine ⟨?_, this.2 (by simp)⟩
  rw [this.1]
  show (0 + rs.length) % 2 ^ 32 = rs.length
  rw [Nat.zero_add]
  exact Nat.mod_eq_of_lt hk

/-- An embedded reading with the given celsius value and timestamp. -/
def mkER (x : Rat) (t : Nat) : EmbeddedTemperatureReading :=
  ⟨⟨x⟩, t⟩

/-- C9 witness: three insertions into a capacity-2 store leave the counter at 3
and the occupancy at 2. -/
theorem embedded_counter_c9_witness :
    (runEmbAdds 2 ⟨[], 0⟩ [mkER 1 0, mkER 2 1, mkER 3 2]).getD ⟨[], 0⟩ =
        ⟨[mkER 2 1, mkER 3 2], 3⟩ ∧
    ((runEmbAdds 2 ⟨[], 0⟩ [mkER 1 0, mkER 2 1, mkER 3 2]).getD
        ⟨[], 0⟩).total_readings = 3 ∧
    ((runEmbAdds 2 ⟨[], 0⟩ [mkER 1 0, mkER 2 1, mkER 3 2]).getD
        ⟨[], 0⟩).readings.length ≤ 2 :=
  ⟨by decide,
    (embedded_counter_c9 2 [mkER 1 0, mkER 2 1, mkER 3 2] _ (by decide) (by decide)).1,
    (embedded_counter_c9 2 [mkER 1 0, mkER 2 1, mkER 3 2] _ (by decide) (by decide)).2⟩

/-! ## Mock sensor (`temp_core::mock`) -/

/-- `temp_core::mock::MockError`. -/
inductive MockError where
  | sensorOffline
  | readFailed
deriving DecidableEq

/-- `temp_core::mock::MockTemperatureSensor`. -/
structure MockTemperatureSensor where
  id : List Nat
  temperature : Rat
  fail_next : Bool
  offline : Bool
deriving DecidableEq

/-- `MockTemperatureSensor::read_temperature` (`&mut self`): returns the result
together with the possibly mutated sensor (a failing one-shot read clears the
`fail_next` flag). -/
def readTemperature (s : MockTemperatureSensor) :
    Except MockError Temperature × MockTemperatureSensor :=
  if s.offline then (.error .sensorOffline, s)
  else if s.fail_next then (.error .readFailed, { s with fail_next := false })
  else (.ok ⟨s.temperature⟩, s)

/-- `MockTemperatureSensor::set_base_temperature`. -/
def setBaseTemperature (s : MockTemperatureSensor) (t : Rat) : MockTemperatureSensor :=
  { s with temperature := t }

/-! ## Protocol vocabulary (`temp_protocol`) -/

/-- `temp_protocol::Command`.  Sensor ids are UTF-8 byte strings. -/
inductive Command where
  | getStatus
  | getReading (sensor_id : List Nat)
  | setThreshold (sensor_id : List Nat) (min_temp : Rat) (max_temp : Rat)
  | getHistory (sensor_id : List Nat) (last_n : Nat)
  | getStats (sensor_id : List Nat)
  | calibrate (sensor_id : List Nat) (actual_temp : Rat)
deriving DecidableEq

/-- `temp_protocol::Response`. -/
inductive Response where
  | status (active_sensors : List (List Nat)) (uptime_seconds : Nat) (readings_count : Nat)
  | reading (sensor_id : List Nat) (temperature : Rat) (timestamp : Nat)
  | thresholdSet (sensor_id : List Nat) (min_temp : Rat) (max_temp : Rat)
  | history (sensor_id : List Nat) (readings : List TemperatureReading)
  | stats (sensor_id : List Nat) (stats : TemperatureStats)
  | calibrationComplete (sensor_id : List Nat) (offset_adjustment : Rat)
  | error (code : Nat) (message : List Nat)
deriving DecidableEq

/-- `temp_protocol::MessagePayload`. -/
inductive MessagePayload where
  | command (c : Command)
  | response (r : Response)
deriving DecidableEq

/-- `temp_protocol::ProtocolMessage` (the wire envelope). -/
structure ProtocolMessage where
  version : Nat
  id : Nat
  payload : MessagePayload
deriving DecidableEq

/-- UTF-8 bytes of an ASCII string literal. -/
def strBytes (s : String) : List Nat :=
  s.toList.map Char.toNat

/-- Decimal digits (ASCII) of a natural number. -/
def renderNat (n : Nat) : List Nat :=
  if h : n < 10 then [48 + n]
  else renderNat (n / 10) ++ [48 + n % 10]
decreasing_by exact Nat.div_lt_self (by omega) (by omega)

/-- Exactly `k` decimal digits of `n`, left-padded with zeros. -/
def renderNatPad (k n : Nat) : List Nat :=
  match k with
  | 0 => []
  | k + 1 => renderNatPad k (n / 10) ++ [48 + n % 10]

/-- Least `k ≤ 200` with `d ∣ 10 ^ k`, if any: the number of decimal fraction
digits needed for a rational with denominator `d`.  Every `f32` value is a
dyadic rational with denominator at most `2 ^ 149`, so for every value the
Rust code can hold this search succeeds. -/
def fracDigitCount (d : Nat) : Option Nat :=
  (List.range 200).find? (fun k => 10 ^ k % d == 0)

/-- Modelled from the spec: the `std` `Display` rendering of a finite `f32`
(`format!` in the error strings), i.e. the shortest exact decimal form, with
no forced fractional part for integral values.  Total on `Rat` via a fallback
byte that no `f32`-representable value ever hits. -/
def displayF32 (q : Rat) : List Nat :=
  match fracDigitCount q.den with
  | none => [63]
  | some k =>
    let sgn : List Nat := if q < 0 then [45] else []
    let n : Nat := q.num.natAbs * (10 ^ k / q.den)
    if k = 0 then sgn ++ renderNat n
    else sgn ++ renderNat (n / 10 ^ k) ++ [46] ++ renderNatPad k (n % 10 ^ k)

/-- The `format!` string of `ProtocolError::InvalidSensorId::to_response`. -/
def sensorNotFoundMsg (id : List Nat) : List Nat :=
  strBytes "Sensor " ++ [39] ++ id ++ [39] ++ strBytes " not found"

/-- The `format!` string of `ProtocolError::SensorNotResponding::to_response`. -/
def sensorNotRespondingMsg (id : List Nat) : List Nat :=
  strBytes "Sensor " ++ [39] ++ id ++ [39] ++ strBytes " is not responding"

/-- The `format!` string of `ProtocolError::InvalidThreshold::to_response`. -/
def invalidThresholdMsg (mn mx : Rat) : List Nat :=
  strBytes "Invalid threshold min=" ++ displayF32 mn ++ strBytes ", max=" ++
    displayF32 mx ++ strBytes ": Min temperature must be less than max temperature"

/-- The `format!` string of `ProtocolError::CalibrationFailed::to_response`. -/
def calibrationFailedMsg (id : List Nat) : List Nat :=
  strBytes "Calibration failed for " ++ [39] ++ id ++ [39] ++
    strBytes ": Sensor not responding during calibration"

/-- The `format!` string of `ProtocolError::ProtocolVersionMismatch::to_response`. -/
def versionMismatchMsg (expected received : Nat) : List Nat :=
  strBytes "Protocol version mismatch: expected " ++ renderNat expected ++
    strBytes ", got " ++ renderNat received

/-- The fixed message for a `MessagePayload::Response` request. -/
def cannotProcessResponseMsg : List Nat :=
  strBytes "Cannot process response messages"

/-! ## Protocol handler (`temp_protocol::TemperatureProtocolHandler`) -/

/-- Association-list lookup, modelling `HashMap::get`/`contains_key`. -/
def alookup {β : Type} : List (List Nat × β) → List Nat → Option β
  | [], _ => none
  | (k', v) :: t, k => if k' = k then some v else alookup t k

/-- Association-list insert-or-replace, modelling `HashMap::insert` (and the
write-back of a `get_mut` mutation). -/
def aupdate {β : Type} : List (List Nat × β) → List Nat → β → List (List Nat × β)
  | [], k, v => [(k, v)]
  | (k', v') :: t, k, v =>
    if k' = k then (k, v) :: t else (k', v') :: aupdate t k v

/-- `TemperatureProtocolHandler` state.  `start_time` stands for the
`Instant` captured at construction; elapsed time is `now - start_time`. -/
structure TemperatureProtocolHandler where
  next_message_id : Nat
  sensors : List (List Nat × MockTemperatureSensor)
  store : TemperatureStore
  thresholds : List (List Nat × (Rat × Rat))
  start_time : Nat
deriving DecidableEq

/-- `TemperatureProtocolHandler::new()`: three mock sensors at 23.5, 21.8 and
25.1 celsius, a capacity-100 store, no thresholds. -/
def TemperatureProtocolHandler.new : TemperatureProtocolHandler :=
  { next_message_id := 1,
    sensors := [
      (strBytes "temp_01", ⟨strBytes "temp_01", 47 / 2, false, false⟩),
      (strBytes "temp_02", ⟨strBytes "temp_02", 109 / 5, false, false⟩),
      (strBytes "temp_03", ⟨strBytes "temp_03", 251 / 10, false, false⟩)],
    store := TemperatureStore.new 100,
    thresholds := [],
    start_time := 0 }

/-- `TemperatureProtocolHandler::create_response`. -/
def createResponse (request_id : Nat) (r : Response) : ProtocolMessage :=
  ⟨1, request_id, .response r⟩

/-- `TemperatureProtocolHandler::handle_command` (`&mut self`), with `now` the
current wall-clock second.  `none` is the (unreachable for the real
capacity-100 store) panic of `add_reading` at capacity 0. -/
def handleCommand (h : TemperatureProtocolHandler) (cmd : Command) (now : Nat) :
    Option (TemperatureProtocolHandler × Response) :=
  match cmd with
  | .getStatus =>
    some (h, .status (h.sensors.map (fun p => p.1)) (now - h.start_time)
      h.store.readings.length)
  | .getReading sensor_id =>
    match alookup h.sensors sensor_id with
    | some sensor =>
      match readTemperature sensor with
      | (.ok temp, sensor') =>
        match addReading h.store ⟨temp, now⟩ with
        | none => none
        | some store' =>
          some ({ h with sensors := aupdate h.sensors sensor_id sensor',
                         store := store' },
                .reading sensor_id temp.celsius now)
      | (.error _, sensor') =>
        some ({ h with sensors := aupdate h.sensors sensor_id sensor' },
              .error 503 (sensorNotRespondingMsg sensor_id))
    | none => some (h, .error 404 (sensorNotFoundMsg sensor_id))
  | .setThreshold sensor_id min_temp max_temp =>
    if max_temp ≤ min_temp then
      some (h, .error 400 (invalidThresholdMsg min_temp max_temp))
    else if (alookup h.sensors sensor_id).isNone then
      some (h, .error 404 (sensorNotFoundMsg sensor_id))
    else
      some ({ h with thresholds := aupdate h.thresholds sensor_id (min_temp, max_temp) },
            .thresholdSet sensor_id min_temp max_temp)
  | .getHistory sensor_id last_n =>
    if (alookup h.sensors sensor_id).isNone then
      some (h, .error 404 (sensorNotFoundMsg sensor_id))
    else
      some (h, .history sensor_id (getRecentReadings h.store last_n))
  | .getStats sensor_id =>
    if (alookup h.sensors sensor_id).isNone then
      some (h, .error 404 (sensorNotFoundMsg sensor_id))
    else
      some (h, .stats sensor_id (getStats h.store))
  | .calibrate sensor_id actual_temp =>
    match alookup h.sensors sensor_id with
    | some sensor =>
      match readTemperature sensor with
      | (.ok current, sensor') =>
        some ({ h with sensors :=
                  aupdate h.sensors sensor_id (setBaseTemperature sensor' actual_temp) },
              .calibrationComplete sensor_id (actual_temp - current.celsius))
      | (.error _, sensor') =>
        some ({ h with sensors := aupdate h.sensors sensor_id sensor' },
              .error 422 (calibrationFailedMsg sensor_id))
    | none => some (h, .error 404 (sensorNotFoundMsg sensor_id))

/-- `TemperatureProtocolHandler::process_command`: version gate, then payload
dispatch, then wrap in a version-1 response envelope with the request id. -/
def processCommand (h : TemperatureProtocolHandler) (m : ProtocolMessage) (now : Nat) :
    Option (TemperatureProtocolHandler × ProtocolMessage) :=
  if m.version ≠ 1 then
    some (h, createResponse m.id (.error 505 (versionMismatchMsg 1 m.version)))
  else
    match m.payload with
    | .command cmd =>
      match handleCommand h cmd now with
      | none => none
      | some (h', resp) => some (h', createResponse m.id resp)
    | .response _ =>
      some (h, createResponse m.id (.error 400 cannotProcessResponseMsg))

/-! ## C4 — version gate -/

/-- C4: any envelope whose version differs from 1 is answered with an Error
response of code 505, the handler state is untouched, and the payload plays no
role (the result depends only on the envelope's id and version). -/
theorem version_mismatch_c4 (h : TemperatureProtocolHandler) (m : ProtocolMessage)
    (now : Nat) (hv : m.version ≠ 1) :
    processCommand h m now =
      some (h, ⟨1, m.id, .response (.error 505 (versionMismatchMsg 1 m.version))⟩) := by
  unfold processCommand
  rw [if_pos hv]
  rfl

/-- C4 witness: a version-2 GetStatus envelope is rejected with code 505. -/
theorem version_mismatch_c4_witness :
    processCommand TemperatureProtocolHandler.new ⟨2, 5, .command .getStatus⟩ 0 =
      some (TemperatureProtocolHandler.new,
        ⟨1, 5, .response (.error 505 (versionMismatchMsg 1 2))⟩) :=
  version_mismatch_c4 TemperatureProtocolHandler.new ⟨2, 5, .command .getStatus⟩ 0
    (by decide)

/-! ## C5 — validation failures mutate nothing -/

/-- C5: commands rejected by validation return their specified error code with
the handler state unchanged: `SetThreshold` with `min >= max` gives 400 and
leaves the threshold table as it was; `GetReading`, `SetThreshold`,
`GetHistory`, `GetStats` and `Calibrate` on an unregistered sensor give 404
and leave the store (and all other state) as it was. -/
theorem validation_rejection_c5 :
    (∀ (h : TemperatureProtocolHandler) (sid : List Nat) (mn mx : Rat) (now : Nat),
      mx ≤ mn →
      handleCommand h (.setThreshold sid mn mx) now =
        some (h, .error 400 (invalidThresholdMsg mn mx))) ∧
    (∀ (h : TemperatureProtocolHandler) (sid : List Nat) (now : Nat),
      alookup h.sensors sid = none →
      handleCommand h (.getReading sid) now =
        some (h, .error 404 (sensorNotFoundMsg sid))) ∧
    (∀ (h : TemperatureProtocolHandler) (sid : List Nat) (mn mx : Rat) (now : Nat),
      mn < mx → alookup h.sensors sid = none →
      handleCommand h (.setThreshold sid mn mx) now =
        some (h, .error 404 (sensorNotFoundMsg sid))) ∧
    (∀ (h : TemperatureProtocolHandler) (sid : List Nat) (n now : Nat),
      alookup h.sensors sid = none →
      handleCommand h (.getHistory sid n) now =
        some (h, .error 404 (sensorNotFoundMsg sid))) ∧
    (∀ (h : TemperatureProtocolHandler) (sid : List Nat) (now : Nat),
      alookup h.sensors sid = none →
      handleCommand h (.getStats sid) now =
        some (h, .error 404 (sensorNotFoundMsg sid))) ∧
    (∀ (h : TemperatureProtocolHandler) (sid : List Nat) (a : Rat) (now : Nat),
      alookup h.sensors sid = none →
      handleCommand h (.calibrate sid a) now =
        some (h, .error 404 (sensorNotFoundMsg sid))) := by
  refine ⟨?_, ?_, ?_, ?_, ?_, ?_⟩
  · intro h sid mn mx now hle
    simp only [handleCommand]
    rw [if_pos hle]
  · intro h sid now hnone
    simp only [handleCommand, hnone]
  · intro h sid mn mx now hlt hnone
    simp only [handleCommand]
    rw [if_neg (not_le_of_lt hlt), if_pos (by rw [hnone]; rfl)]
  · intro h sid n now hnone
    simp only [handleCommand]
    rw [if_pos (by rw [hnone]; rfl)]
  · intro h sid now hnone
    simp only [handleCommand]
    rw [if_pos (by rw [hnone]; rfl)]
  · intro h sid a now hnone
    simp only [handleCommand, hnone]

/-- C5 witness: on the freshly constructed handler, a bad threshold gives 400
and an unknown sensor gives 404, in each case without touching the state. -/
theorem validation_rejection_c5_witness :
    handleCommand TemperatureProtocolHandler.new
        (.setThreshold (strBytes "temp_01") 30 20) 0 =
      some (TemperatureProtocolHandler.new, .error 400 (invalidThresholdMsg 30 20)) ∧
    handleCommand TemperatureProtocolHandler.new (.getReading (strBytes "nope")) 0 =
      some (TemperatureProtocolHandler.new, .error 404 (sensorNotFoundMsg (strBytes "nope"))) ∧
    handleCommand TemperatureProtocolHandler.new (.getHistory (strBytes "nope") 3) 0 =
      some (TemperatureProtocolHandler.new, .error 404 (sensorNotFoundMsg (strBytes "nope"))) ∧
    handleCommand TemperatureProtocolHandler.new (.getStats (strBytes "nope")) 0 =
      some (TemperatureProtocolHandler.new, .error 404 (sensorNotFoundMsg (strBytes "nope"))) ∧
    handleCommand TemperatureProtocolHandler.new (.calibrate (strBytes "nope") 25) 0 =
      some (TemperatureProtocolHandler.new, .error 404 (sensorNotFoundMsg (strBytes "nope"))) :=
  ⟨validation_rejection_c5.1 TemperatureProtocolHandler.new (strBytes "temp_01") 30 20 0
      (by norm_num),
    validation_rejection_c5.2.1 TemperatureProtocolHandler.new (strBytes "nope") 0
      (by decide),
    validation_rejection_c5.2.2.2.1 TemperatureProtocolHandler.new (strBytes "nope") 3 0
      (by decide),
    validation_rejection_c5.2.2.2.2.1 TemperatureProtocolHandler.new (strBytes "nope") 0
      (by decide),
    validation_rejection_c5.2.2.2.2.2 TemperatureProtocolHandler.new (strBytes "nope") 25 0
      (by decide)⟩

/-! ## C6 — calibration -/

/-- C6: calibrating a registered sensor performs one fresh read.  When the
read succeeds the handler answers `CalibrationComplete` carrying
`offset = actual_temp - measured_temp` and rebases the sensor's baseline by
that offset (so a subsequent successful read reports the rebased baseline);
when the fresh read fails the command answers error code 422 rather than
silently doing nothing. -/
theorem calibrate_c6 :
    (∀ (h : TemperatureProtocolHandler) (sid : List Nat)
      (sen : MockTemperatureSensor) (actual : Rat) (now : Nat),
      alookup h.sensors sid = some sen →
      sen.offline = false → sen.fail_next = false →
      handleCommand h (.calibrate sid actual) now =
        some ({ h with sensors :=
                  aupdate h.sensors sid { sen with temperature := actual } },
              .calibrationComplete sid (actual - sen.temperature)) ∧
      { sen with temperature := actual }.temperature =
        sen.temperature + (actual - sen.temperature) ∧
      (readTemperature { sen with temperature := actual }).1 =
        .ok ⟨sen.temperature + (actual - sen.temperature)⟩) ∧
    (∀ (h : TemperatureProtocolHandler) (sid : List Nat)
      (sen : MockTemperatureSensor) (actual : Rat) (now : Nat),
      alookup h.sensors sid = some sen →
      (sen.offline = true ∨ sen.fail_next = true) →
      ∃ h', handleCommand h (.calibrate sid actual) now =
        some (h', .error 422 (calibrationFailedMsg sid))) := by
  constructor
  · intro h sid sen actual now hlook hoff hfail
    have hread : readTemperature sen = (.ok ⟨sen.temperature⟩, sen) := by
      unfold readTemperature
      rw [hoff, hfail]
      simp
    refine ⟨?_, ?_, ?_⟩
    · simp only [handleCommand, hlook, hread, setBaseTemperature]
    · simp
    · unfold readTemperature
      simp only [hoff, hfail]
      simp only [Bool.false_eq_true, if_false]
      congr 2
      ring
  · intro h sid sen actual now hlook hbad
    simp only [handleCommand, hlook]
    rcases hbad with hoff | hfail
    · have hread : readTemperature sen = (.error .sensorOffline, sen) := by
        unfold readTemperature
        rw [hoff]
        simp
      simp only [hread]
      exact ⟨_, rfl⟩
    · by_cases hoff : sen.offline = true
      · have hread : readTemperature sen = (.error .sensorOffline, sen) := by
          unfold readTemperature
          rw [hoff]
          simp
        simp only [hread]
        exact ⟨_, rfl⟩
      · have hread : readTemperature sen =
            (.error .readFailed, { sen with fail_next := false }) := by
          unfold readTemperature
          rw [hfail]
          simp only [Bool.not_eq_true] at hoff
          rw [hoff]
          simp
        simp only [hread]
        exact ⟨_, rfl⟩

/-- A one-sensor handler used as a concrete calibration witness state. -/
def calDemoSensor : MockTemperatureSensor :=
  ⟨[97], 20, false, false⟩

/-- The handler holding `calDemoSensor` under id `[97]`. -/
def calDemoHandler : TemperatureProtocolHandler :=
  ⟨1, [([97], calDemoSensor)], TemperatureStore.new 100, [], 0⟩

/-- C6 witness: calibrating the demo sensor to 25 yields offset 5 and rebases
the baseline so the next read reports 25. -/
theorem calibrate_c6_witness :
    handleCommand calDemoHandler (.calibrate [97] 25) 0 =
      some
        ({ calDemoHandler with
            sensors :=
              aupdate calDemoHandler.sensors [97]
                { calDemoSensor with temperature := 25 } },
          .calibrationComplete [97] (25 - calDemoSensor.temperature)) ∧
    (readTemperature { calDemoSensor with temperature := 25 }).1 =
      .ok ⟨calDemoSensor.temperature + (25 - calDemoSensor.temperature)⟩ :=
  ⟨(calibrate_c6.1 calDemoHandler [97] calDemoSensor 25 0 (by decide) rfl rfl).1,
    (calibrate_c6.1 calDemoHandler [97] calDemoSensor 25 0 (by decide) rfl rfl).2.2⟩

/-! ## C10 — history and statistics are not per-sensor -/

/-- C10: for any two registered sensors, `GetHistory` returns the same
readings list and `GetStats` the same statistics — both are computed from the
single shared store — with only the echoed `sensor_id` differing, and the
handler state untouched. -/
theorem shared_store_c10 (h : TemperatureProtocolHandler) (s1 s2 : List Nat)
    (n now : Nat)
    (h1 : (alookup h.sensors s1).isSome = true)
    (h2 : (alookup h.sensors s2).isSome = true) :
    handleCommand h (.getHistory s1 n) now =
      some (h, .history s1 (getRecentReadings h.store n)) ∧
    handleCommand h (.getHistory s2 n) now =
      some (h, .history s2 (getRecentReadings h.store n)) ∧
    handleCommand h (.getStats s1) now = some (h, .stats s1 (getStats h.store)) ∧
    handleCommand h (.getStats s2) now = some (h, .stats s2 (getStats h.store)) := by
  have hn1 : (alookup h.sensors s1).isNone = false := by
    cases hx : alookup h.sensors s1
    · rw [hx] at h1; simp at h1
    · rfl
  have hn2 : (alookup h.sensors s2).isNone = false := by
    cases hx : alookup h.sensors s2
    · rw [hx] at h2; simp at h2
    · rfl
  refine ⟨?_, ?_, ?_, ?_⟩ <;>
    · simp only [handleCommand]
      rw [if_neg (by simp [hn1, hn2])]

/-- A two-sensor handler used as a concrete shared-store witness state. -/
def twoSensorHandler : TemperatureProtocolHandler :=
  ⟨1, [([97], ⟨[97], 20, false, false⟩), ([98], ⟨[98], 21, false, false⟩)],
    ⟨100, [mkR 20 0, mkR 21 1]⟩, [], 0⟩

/-- C10 witness: both registered sensors of the demo handler get the same
history and the same stats, differing only in the echoed id. -/
theorem shared_store_c10_witness :
    handleCommand twoSensorHandler (.getHistory [97] 5) 0 =
      some (twoSensorHandler, .history [97] (getRecentReadings twoSensorHandler.store 5)) ∧
    handleCommand twoSensorHandler (.getHistory [98] 5) 0 =
      some (twoSensorHandler, .history [98] (getRecentReadings twoSensorHandler.store 5)) ∧
    handleCommand twoSensorHandler (.getStats [97]) 0 =
      some (twoSensorHandler, .stats [97] (getStats twoSensorHandler.store)) ∧
    handleCommand twoSensorHandler (.getStats [98]) 0 =
      some (twoSensorHandler, .stats [98] (getStats twoSensorHandler.store)) :=
  shared_store_c10 twoSensorHandler [97] [98] 5 0 (by decide) (by decide)

/-! ## Wire codec primitives

Modelled from the spec: the two wire codecs — the self-describing textual
(JSON) form and the compact schema-bound binary (postcard) form — live in
dependency crates, not under the repository's own sources; only the derived
data model is.  They are modelled here from their documented schema-driven
formats over byte strings (`List Nat`).
-/

/-- Unsigned little-endian base-128 varint (postcard's integer encoding). -/
def encVarint (n : Nat) : List Nat :=
  if h : n < 128 then [n]
  else (n % 128 + 128) :: encVarint (n / 128)
decreasing_by exact Nat.div_lt_self (by omega) (by omega)

/-- Varint decoder, returning the value and the unconsumed tail. -/
def parseVarint : List Nat → Option (Nat × List Nat)
  | [] => none
  | b :: rest =>
    if b < 128 then some (b, rest)
    else
      match parseVarint rest with
      | none => none
      | some (m, r) => some (b - 128 + 128 * m, r)

theorem parseVarint_enc (n : Nat) : ∀ rest : List Nat,
    parseVarint (encVarint n ++ rest) = some (n, rest) := by
  induction n using Nat.strong_induction_on with
  | _ n ih =>
    intro rest
    by_cases h : n < 128
    · have he : encVarint n = [n] := by rw [encVarint, dif_pos h]
      rw [he]
      simp [parseVarint, h]
    · have he : encVarint n = (n % 128 + 128) :: encVarint (n / 128) := by
        rw [encVarint, dif_neg h]
      rw [he]
      have hb : ¬ (n % 128 + 128 < 128) := by omega
      have ihrec := ih (n / 128) (Nat.div_lt_self (by omega) (by omega)) rest
      have ihrec' : parseVarint ((encVarint (n / 128)).append rest) =
          some (n / 128, rest) := ihrec
      have hval : n % 128 + 128 - 128 + 128 * (n / 128) = n := by omega
      simp only [List.cons_append, parseVarint, if_neg hb, ihrec, ihrec', hval]

/-- Take exactly `n` bytes. -/
def parseBytes (n : Nat) (l : List Nat) : Option (List Nat × List Nat) :=
  if n ≤ l.length then some (l.take n, l.drop n) else none

theorem parseBytes_enc (s rest : List Nat) :
    parseBytes s.length (s ++ rest) = some (s, rest) := by
  unfold parseBytes
  rw [if_pos (by simp), List.take_left, List.drop_left]

/-- Four little-endian bytes of a 32-bit word. -/
def enc4LE (p : Nat) : List Nat :=
  [p % 256, p / 256 % 256, p / 256 ^ 2 % 256, p / 256 ^ 3 % 256]

/-- Read four little-endian bytes back into a 32-bit word. -/
def parse4LE : List Nat → Option (Nat × List Nat)
  | b0 :: b1 :: b2 :: b3 :: rest =>
    some (b0 + 256 * (b1 + 256 * (b2 + 256 * b3)), rest)
  | _ => none

theorem parse4LE_enc (p : Nat) (hp : p < 2 ^ 32) (rest : List Nat) :
    parse4LE (enc4LE p ++ rest) = some (p, rest) := by
  unfold enc4LE parse4LE
  simp only [List.cons_append, List.nil_append, Option.some.injEq, Prod.mk.injEq]
  refine ⟨?_, trivial⟩
  have h1 : (256 : Nat) ^ 2 = 65536 := by norm_num
  have h2 : (256 : Nat) ^ 3 = 16777216 := by norm_num
  rw [h1, h2]
  omega

/-- True byte of an ASCII decimal digit. -/
def isDigitB (b : Nat) : Bool :=
  decide (48 ≤ b ∧ b ≤ 57)

theorem renderNat_ne_nil (n : Nat) : renderNat n ≠ [] := by
  rw [renderNat]
  split
  · simp
  · simp

theorem renderNat_digits (n : Nat) : ∀ b ∈ renderNat n, isDigitB b = true := by
  induction n using Nat.strong_induction_on with
  | _ n ih =>
    rw [renderNat]
    split
    · intro b hb
      simp only [List.mem_singleton] at hb
      subst hb
      simp only [isDigitB, decide_eq_true_eq]
      omega
    · intro b hb
      rw [List.mem_append] at hb
      rcases hb with hb | hb
      · exact ih (n / 10) (Nat.div_lt_self (by omega) (by omega)) b hb
      · simp only [List.mem_singleton] at hb
        subst hb
        simp only [isDigitB, decide_eq_true_eq]
        omega

/-- Value of a list of ASCII decimal digits, most significant first. -/
def digitsToNat (ds : List Nat) : Nat :=
  ds.foldl (fun a d => 10 * a + (d - 48)) 0

theorem foldlDigits_renderNat (n : Nat) : ∀ a : Nat,
    (renderNat n).foldl (fun a d => 10 * a + (d - 48)) a =
      a * 10 ^ (renderNat n).length + n := by
  induction n using Nat.strong_induction_on with
  | _ n ih =>
    intro a
    rw [renderNat]
    split
    · simp only [List.foldl_cons, List.foldl_nil, List.length_singleton]
      omega
    · rw [List.foldl_append, ih (n / 10) (Nat.div_lt_self (by omega) (by omega))]
      simp only [List.foldl_cons, List.foldl_nil, List.length_append,
        List.length_singleton]
      have h10 : 10 ^ ((renderNat (n / 10)).length + 1) =
          10 ^ (renderNat (n / 10)).length * 10 := by
        rw [pow_succ]
      rw [h10]
      have hmod : 10 * (n / 10) + (48 + n % 10 - 48) = n := by omega
      ring_nf
      omega

theorem digitsToNat_renderNat (n : Nat) : digitsToNat (renderNat n) = n := by
  unfold digitsToNat
  rw [foldlDigits_renderNat n 0]
  simp

theorem renderNatPad_length (k : Nat) : ∀ n, (renderNatPad k n).length = k := by
  induction k with
  | zero => intro n; rfl
  | succ k ih =>
    intro n
    simp only [renderNatPad, List.length_append, List.length_singleton, ih]

theorem renderNatPad_digits (k : Nat) : ∀ n, ∀ b ∈ renderNatPad k n, isDigitB b = true := by
  induction k with
  | zero => intro n b hb; simp [renderNatPad] at hb
  | succ k ih =>
    intro n b hb
    simp only [renderNatPad, List.mem_append, List.mem_singleton] at hb
    rcases hb with hb | hb
    · exact ih (n / 10) b hb
    · subst hb
      simp only [isDigitB, decide_eq_true_eq]
      omega

theorem foldlDigits_renderNatPad (k : Nat) : ∀ n a : Nat,
    (renderNatPad k n).foldl (fun a d => 10 * a + (d - 48)) a =
      a * 10 ^ k + n % 10 ^ k := by
  induction k with
  | zero => intro n a; simp [renderNatPad, Nat.mod_one]
  | succ k ih =>
    intro n a
    simp only [renderNatPad, List.foldl_append, List.foldl_cons, List.foldl_nil, ih]
    have hsplit : n % 10 ^ (k + 1) = 10 * (n / 10 % 10 ^ k) + n % 10 := by
      have h1 : (10 : Nat) ^ (k + 1) = 10 * 10 ^ k := by ring
      have h2 : n % (10 * 10 ^ k) / 10 = n / 10 % 10 ^ k :=
        Nat.mod_mul_right_div_self n 10 (10 ^ k)
      have h3 : n % (10 * 10 ^ k) % 10 = n % 10 :=
        Nat.mod_mod_of_dvd n ⟨10 ^ k, rfl⟩
      have h4 : n % (10 * 10 ^ k) =
          10 * (n % (10 * 10 ^ k) / 10) + n % (10 * 10 ^ k) % 10 := by omega
      rw [h1, h4, h2, h3]
    rw [hsplit]
    have hp : (10 : Nat) ^ (k + 1) = 10 ^ k * 10 := pow_succ 10 k
    rw [hp]
    ring_nf
    omega

theorem digitsToNat_renderNatPad (k n : Nat) :
    digitsToNat (renderNatPad k n) = n % 10 ^ k := by
  unfold digitsToNat
  rw [foldlDigits_renderNatPad k n 0]
  simp

/-- Splitting `takeWhile`/`dropWhile` over an append whose left part wholly
satisfies the predicate and whose right part starts with a failing byte. -/
theorem takeWhile_dropWhile_append (p : Nat → Bool) (xs : List Nat) :
    ∀ ys : List Nat, (∀ x ∈ xs, p x = true) →
      (∀ b l', ys = b :: l' → p b = false) →
      (xs ++ ys).takeWhile p = xs ∧ (xs ++ ys).dropWhile p = ys := by
  induction xs with
  | nil =>
    intro ys _ hy
    cases ys with
    | nil => simp
    | cons b l' =>
      have hb := hy b l' rfl
      simp [List.takeWhile_cons, List.dropWhile_cons, hb]
  | cons x xs ih =>
    intro ys hall hy
    have hx : p x = true := hall x (by simp)
    have ihh := ih ys (fun y hy' => hall y (by simp [hy'])) hy
    simp [List.takeWhile_cons, List.dropWhile_cons, hx, ihh.1, ihh.2]

/-- Decimal-number parser over the canonical JSON output grammar: a maximal
nonempty run of digits. -/
def parseJsonNat (l : List Nat) : Option (Nat × List Nat) :=
  match l.takeWhile isDigitB with
  | [] => none
  | d :: ds => some (digitsToNat (d :: ds), l.dropWhile isDigitB)

theorem parseJsonNat_enc (n c : Nat) (rest : List Nat) (hc : isDigitB c = false) :
    parseJsonNat (renderNat n ++ c :: rest) = some (n, c :: rest) := by
  have h := takeWhile_dropWhile_append isDigitB (renderNat n) (c :: rest)
    (renderNat_digits n) (by intro b l' he; cases he; exact hc)
  obtain ⟨d, ds, hd⟩ := List.exists_cons_of_ne_nil (renderNat_ne_nil n)
  unfold parseJsonNat
  rw [h.1, h.2, hd]
  show some (digitsToNat (d :: ds), c :: rest) = some (n, c :: rest)
  rw [← hd, digitsToNat_renderNat]

/-- Expect an exact byte sequence at the front, returning the tail. -/
def dropLit : List Nat → List Nat → Option (List Nat)
  | [], l => some l
  | _ :: _, [] => none
  | p :: ps, b :: bs => if b = p then dropLit ps bs else none

theorem dropLit_self_append (p rest : List Nat) :
    dropLit p (p ++ rest) = some rest := by
  induction p with
  | nil => rfl
  | cons x ps ih => simp [dropLit, ih]

/-- Lowercase hex digit byte of a value below 16 (`serde_json` uses lowercase
in its `\u00XX` escapes). -/
def hexDigit (v : Nat) : Nat :=
  if v < 10 then 48 + v else 87 + v

/-- Value of one hex digit byte. -/
def hexVal (b : Nat) : Option Nat :=
  if 48 ≤ b ∧ b ≤ 57 then some (b - 48)
  else if 97 ≤ b ∧ b ≤ 102 then some (b - 87)
  else none

theorem hexVal_hexDigit (v : Nat) (hv : v < 16) : hexVal (hexDigit v) = some v := by
  unfold hexVal hexDigit
  by_cases h : v < 10
  · rw [if_pos h, if_pos (by omega)]
    simp
  · rw [if_neg h, if_neg (by omega), if_pos (by omega)]
    simp

/-- `serde_json`'s escaping of one byte inside a string literal: `\"`, `\\`,
the short escapes for BS/TAB/LF/FF/CR, `\u00XX` for other control bytes, and
everything else verbatim. -/
def escapeByte (b : Nat) : List Nat :=
  if b = 34 then [92, 34]
  else if b = 92 then [92, 92]
  else if b = 8 then [92, 98]
  else if b = 9 then [92, 116]
  else if b = 10 then [92, 110]
  else if b = 12 then [92, 102]
  else if b = 13 then [92, 114]
  else if b < 32 then [92, 117, 48, 48, hexDigit (b / 16), hexDigit (b % 16)]
  else [b]

/-- Escape a whole byte string. -/
def escapeBytes (s : List Nat) : List Nat :=
  s.foldr (fun b acc => escapeByte b ++ acc) []

/-- A JSON string literal: quote, escaped bytes, quote. -/
def jstr (s : List Nat) : List Nat :=
  34 :: (escapeBytes s ++ [34])

/-- Prepend a byte to the string being accumulated by `parseStrBody`. -/
def consF (b : Nat) (o : Option (List Nat × List Nat)) :
    Option (List Nat × List Nat) :=
  o.map (fun p => (b :: p.1, p.2))

/-- Parse a JSON string body (after the opening quote) up to the closing
quote, undoing the escapes `serde_json` emits. -/
def parseStrBody : List Nat → Option (List Nat × List Nat)
  | [] => none
  | b :: rest =>
    if b = 34 then some ([], rest)
    else if b = 92 then
      match rest with
      | [] => none
      | e :: r =>
        if e = 34 then consF 34 (parseStrBody r)
        else if e = 92 then consF 92 (parseStrBody r)
        else if e = 98 then consF 8 (parseStrBody r)
        else if e = 116 then consF 9 (parseStrBody r)
        else if e = 110 then consF 10 (parseStrBody r)
        else if e = 102 then consF 12 (parseStrBody r)
        else if e = 114 then consF 13 (parseStrBody r)
        else if e = 117 then
          match r with
          | 48 :: 48 :: h1 :: h2 :: r2 =>
            match hexVal h1, hexVal h2 with
            | some v1, some v2 => consF (16 * v1 + v2) (parseStrBody r2)
            | _, _ => none
          | _ => none
        else none
    else consF b (parseStrBody rest)

/-- A quoted JSON string: opening quote then body. -/
def parseJsonStr (l : List Nat) : Option (List Nat × List Nat) :=
  match l with
  | [] => none
  | b :: r => if b = 34 then parseStrBody r else none

theorem parseStrBody_q (l : List Nat) : parseStrBody (34 :: l) = some ([], l) := by
  rw [parseStrBody.eq_def]
  simp

theorem parseStrBody_e34 (l : List Nat) :
    parseStrBody (92 :: 34 :: l) = consF 34 (parseStrBody l) := by
  rw [parseStrBody.eq_def]
  simp

theorem parseStrBody_e92 (l : List Nat) :
    parseStrBody (92 :: 92 :: l) = consF 92 (parseStrBody l) := by
  rw [parseStrBody.eq_def]
  simp

theorem parseStrBody_e98 (l : List Nat) :
    parseStrBody (92 :: 98 :: l) = consF 8 (parseStrBody l) := by
  rw [parseStrBody.eq_def]
  simp

theorem parseStrBody_e116 (l : List Nat) :
    parseStrBody (92 :: 116 :: l) = consF 9 (parseStrBody l) := by
  rw [parseStrBody.eq_def]
  simp

theorem parseStrBody_e110 (l : List Nat) :
    parseStrBody (92 :: 110 :: l) = consF 10 (parseStrBody l) := by
  rw [parseStrBody.eq_def]
  simp

theorem parseStrBody_e102 (l : List Nat) :
    parseStrBody (92 :: 102 :: l) = consF 12 (parseStrBody l) := by
  rw [parseStrBody.eq_def]
  simp

theorem parseStrBody_e114 (l : List Nat) :
    parseStrBody (92 :: 114 :: l) = consF 13 (parseStrBody l) := by
  rw [parseStrBody.eq_def]
  simp

theorem parseStrBody_u (h1 h2 : Nat) (l : List Nat) :
    parseStrBody (92 :: 117 :: 48 :: 48 :: h1 :: h2 :: l) =
      match hexVal h1, hexVal h2 with
      | some v1, some v2 => consF (16 * v1 + v2) (parseStrBody l)
      | _, _ => none := by
  rw [parseStrBody.eq_def]
  simp

theorem parseStrBody_lit (b : Nat) (h34 : ¬ b = 34) (h92 : ¬ b = 92) (l : List Nat) :
    parseStrBody (b :: l) = consF b (parseStrBody l) := by
  rw [parseStrBody.eq_def]
  simp [h34, h92]

theorem parseStrBody_enc (s : List Nat) : ∀ rest : List Nat,
    parseStrBody (escapeBytes s ++ 34 :: rest) = some (s, rest) := by
  induction s with
  | nil =>
    intro rest
    show parseStrBody (34 :: rest) = some ([], rest)
    exact parseStrBody_q rest
  | cons b s ih =>
    intro rest
    have hstep : escapeBytes (b :: s) ++ 34 :: rest =
        escapeByte b ++ (escapeBytes s ++ 34 :: rest) := by
      show (escapeByte b ++ escapeBytes s) ++ 34 :: rest = _
      rw [List.append_assoc]
    rw [hstep]
    unfold escapeByte
    by_cases h34 : b = 34
    · subst h34
      rw [if_pos rfl]
      show parseStrBody (92 :: 34 :: (escapeBytes s ++ 34 :: rest)) =
        some (34 :: s, rest)
      rw [parseStrBody_e34, ih rest]
      rfl
    · rw [if_neg h34]
      by_cases h92 : b = 92
      · subst h92
        rw [if_pos rfl]
        show parseStrBody (92 :: 92 :: (escapeBytes s ++ 34 :: rest)) =
          some (92 :: s, rest)
        rw [parseStrBody_e92, ih rest]
        rfl
      · rw [if_neg h92]
        by_cases h8 : b = 8
        · subst h8
          rw [if_pos rfl]
          show parseStrBody (92 :: 98 :: (escapeBytes s ++ 34 :: rest)) =
            some (8 :: s, rest)
          rw [parseStrBody_e98, ih rest]
          rfl
        · rw [if_neg h8]
          by_cases h9 : b = 9
          · subst h9
            rw [if_pos rfl]
            show parseStrBody (92 :: 116 :: (escapeBytes s ++ 34 :: rest)) =
              some (9 :: s, rest)
            rw [parseStrBody_e116, ih rest]
            rfl
          · rw [if_neg h9]
            by_cases h10 : b = 10
            · subst h10
              rw [if_pos rfl]
              show parseStrBody (92 :: 110 :: (escapeBytes s ++ 34 :: rest)) =
                some (10 :: s, rest)
              rw [parseStrBody_e110, ih rest]
              rfl
            · rw [if_neg h10]
              by_cases h12 : b = 12
              · subst h12
                rw [if_pos rfl]
                show parseStrBody (92 :: 102 :: (escapeBytes s ++ 34 :: rest)) =
                  some (12 :: s, rest)
                rw [parseStrBody_e102, ih rest]
                rfl
              · rw [if_neg h12]
                by_cases h13 : b = 13
                · subst h13
                  rw [if_pos rfl]
                  show parseStrBody (92 :: 114 :: (escapeBytes s ++ 34 :: rest)) =
                    some (13 :: s, rest)
                  rw [parseStrBody_e114, ih rest]
                  rfl
                · rw [if_neg h13]
                  by_cases hctl : b < 32
                  · rw [if_pos hctl]
                    have hv1 : hexVal (hexDigit (b / 16)) = some (b / 16) :=
                      hexVal_hexDigit _ (by omega)
                    have hv2 : hexVal (hexDigit (b % 16)) = some (b % 16) :=
                      hexVal_hexDigit _ (by omega)
                    have hb : 16 * (b / 16) + b % 16 = b := by omega
                    show parseStrBody (92 :: 117 :: 48 :: 48 :: hexDigit (b / 16) ::
                        hexDigit (b % 16) :: (escapeBytes s ++ 34 :: rest)) =
                      some (b :: s, rest)
                    rw [parseStrBody_u, hv1, hv2]
                    show consF (16 * (b / 16) + b % 16)
                        (parseStrBody (escapeBytes s ++ 34 :: rest)) =
                      some (b :: s, rest)
                    rw [hb, ih rest]
                    rfl
                  · rw [if_neg hctl]
                    show parseStrBody (b :: (escapeBytes s ++ 34 :: rest)) =
                      some (b :: s, rest)
                    rw [parseStrBody_lit b h34 h92, ih rest]
                    rfl

theorem parseJsonStr_enc (s rest : List Nat) :
    parseJsonStr (jstr s ++ rest) = some (s, rest) := by
  unfold jstr parseJsonStr
  simp only [List.cons_append, List.append_assoc, List.singleton_append]
  simp only [if_true, List.nil_append]
  exact parseStrBody_enc s rest

/-! ## Rational magnitudes and decimal float rendering -/

theorem fracDigitCount_dvd (d k : Nat) (h : fracDigitCount d = some k) :
    d ∣ 10 ^ k := by
  unfold fracDigitCount at h
  have hp := List.find?_some h
  simp only [beq_iff_eq] at hp
  exact Nat.dvd_of_mod_eq_zero hp

theorem natAbs_div_den (q : Rat) : (q.num.natAbs : Rat) / (q.den : Rat) = |q| := by
  conv_rhs => rw [← Rat.num_div_den q]
  rw [abs_div]
  congr 1
  · rw [Int.cast_natAbs]
    exact Int.cast_abs
  · symm
    exact abs_of_pos (by exact_mod_cast q.pos)

theorem mag_div_eq_abs (q : Rat) (k : Nat) (h : fracDigitCount q.den = some k) :
    ((q.num.natAbs * (10 ^ k / q.den) : Nat) : Rat) / 10 ^ k = |q| := by
  have hdvd := fracDigitCount_dvd q.den k h
  have hden : q.den ≠ 0 := q.den_nz
  have hmul : q.num.natAbs * (10 ^ k / q.den) * q.den = q.num.natAbs * 10 ^ k := by
    rw [mul_assoc, Nat.div_mul_cancel hdvd]
  have h10 : ((10 : Rat) ^ k) ≠ 0 := by positivity
  have hdQ : (q.den : Rat) ≠ 0 := by exact_mod_cast hden
  rw [← natAbs_div_den q, div_eq_div_iff h10 hdQ]
  push_cast
  exact_mod_cast congrArg (fun x : Nat => (x : Rat)) hmul

/-- The decimal form of the nonnegative exact value `n / 10 ^ k` as rendered
by the textual codec: integer digits, a dot, then exactly `k` fraction digits
(or a single `0` fraction digit when `k = 0`, as the shortest-form renderer
prints integral floats with a trailing `.0`). -/
def encF32Mag (n k : Nat) : List Nat :=
  if k = 0 then renderNat n ++ [46, 48]
  else renderNat (n / 10 ^ k) ++ 46 :: renderNatPad k (n % 10 ^ k)

/-- Textual (JSON) rendering of an `f32` value, modelled on exact rationals:
sign, then the exact decimal magnitude.  `none` when the rational has no
finite decimal form — which never happens for a value an `f32` can hold. -/
def encJsonF32 (q : Rat) : Option (List Nat) :=
  match fracDigitCount q.den with
  | none => none
  | some k =>
    some (if q < 0 then 45 :: encF32Mag (q.num.natAbs * (10 ^ k / q.den)) k
          else encF32Mag (q.num.natAbs * (10 ^ k / q.den)) k)

/-- Parse an unsigned decimal float of the canonical grammar
`digits.digits`. -/
def parseJsonPosF32 (l : List Nat) : Option (Rat × List Nat) :=
  match parseJsonNat l with
  | none => none
  | some (ip, r) =>
    match r with
    | 46 :: r2 =>
      match r2.takeWhile isDigitB with
      | [] => none
      | d :: ds =>
        some ((ip : Rat) + (digitsToNat (d :: ds) : Rat) / 10 ^ (d :: ds).length,
          r2.dropWhile isDigitB)
    | _ => none

/-- Parse a decimal float: optional leading minus, then the magnitude. -/
def parseJsonF32 (l : List Nat) : Option (Rat × List Nat) :=
  match l with
  | [] => none
  | b :: r =>
    if b = 45 then
      match parseJsonPosF32 r with
      | none => none
      | some (v, r') => some (-v, r')
    else parseJsonPosF32 (b :: r)

theorem parseJsonPosF32_mag (n k c : Nat) (rest : List Nat)
    (hc : isDigitB c = false) :
    parseJsonPosF32 (encF32Mag n k ++ c :: rest) =
      some ((n : Rat) / 10 ^ k, c :: rest) := by
  by_cases hk : k = 0
  · subst hk
    have h1 := parseJsonNat_enc n 46 (48 :: c :: rest) (by decide)
    have ht : List.takeWhile isDigitB (48 :: c :: rest) = [48] := by
      rw [List.takeWhile_cons, if_pos (by decide)]
      rw [List.takeWhile_cons, if_neg (by simp [hc])]
    have hd : List.dropWhile isDigitB (48 :: c :: rest) = c :: rest := by
      rw [List.dropWhile_cons, if_pos (by decide)]
      rw [List.dropWhile_cons, if_neg (by simp [hc])]
    have henc : encF32Mag n 0 ++ c :: rest = renderNat n ++ 46 :: 48 :: c :: rest := by
      unfold encF32Mag
      rw [if_pos rfl, List.append_assoc]
      rfl
    rw [henc]
    unfold parseJsonPosF32
    rw [h1]
    show (match List.takeWhile isDigitB (48 :: c :: rest) with
      | [] => none
      | d :: ds => some ((n : Rat) + (digitsToNat (d :: ds) : Rat) / 10 ^ (d :: ds).length,
          List.dropWhile isDigitB (48 :: c :: rest))) = some ((n : Rat) / 10 ^ 0, c :: rest)
    rw [ht, hd]
    show some ((n : Rat) + (digitsToNat [48] : Rat) / 10 ^ ([48] : List Nat).length,
      c :: rest) = some ((n : Rat) / 10 ^ 0, c :: rest)
    norm_num [digitsToNat]
  · have h1 := parseJsonNat_enc (n / 10 ^ k) 46
      (renderNatPad k (n % 10 ^ k) ++ c :: rest) (by decide)
    have hsplit := takeWhile_dropWhile_append isDigitB (renderNatPad k (n % 10 ^ k))
      (c :: rest) (renderNatPad_digits k (n % 10 ^ k))
      (by intro b l' he; cases he; exact hc)
    have hne : renderNatPad k (n % 10 ^ k) ≠ [] := by
      intro hcon
      have := renderNatPad_length k (n % 10 ^ k)
      rw [hcon] at this
      simp at this
      omega
    obtain ⟨d, ds, hd⟩ := List.exists_cons_of_ne_nil hne
    have henc : encF32Mag n k ++ c :: rest = renderNat (n / 10 ^ k) ++
        46 :: (renderNatPad k (n % 10 ^ k) ++ c :: rest) := by
      unfold encF32Mag
      rw [if_neg hk, List.append_assoc]
      rfl
    rw [henc]
    unfold parseJsonPosF32
    rw [h1]
    show (match List.takeWhile isDigitB (renderNatPad k (n % 10 ^ k) ++ c :: rest) with
      | [] => none
      | d :: ds => some (((n / 10 ^ k : Nat) : Rat) +
          (digitsToNat (d :: ds) : Rat) / 10 ^ (d :: ds).length,
          List.dropWhile isDigitB (renderNatPad k (n % 10 ^ k) ++ c :: rest))) =
      some ((n : Rat) / 10 ^ k, c :: rest)
    rw [hsplit.1, hsplit.2, hd]
    show some (((n / 10 ^ k : Nat) : Rat) +
        (digitsToNat (d :: ds) : Rat) / 10 ^ (d :: ds).length, c :: rest) =
      some ((n : Rat) / 10 ^ k, c :: rest)
    rw [← hd, digitsToNat_renderNatPad,
      show (renderNatPad k (n % 10 ^ k)).length = k from renderNatPad_length k _,
      Nat.mod_mod_of_dvd _ dvd_rfl]
    have h10 : ((10 : Rat) ^ k) ≠ 0 := by positivity
    congr 1
    rw [Prod.ext_iff]
    refine ⟨?_, rfl⟩
    show ((n / 10 ^ k : Nat) : Rat) + ((n % 10 ^ k : Nat) : Rat) / 10 ^ k =
      (n : Rat) / 10 ^ k
    field_simp
    have hnat : n / 10 ^ k * 10 ^ k + n % 10 ^ k = n := by
      rw [Nat.mul_comm]
      exact Nat.div_add_mod n (10 ^ k)
    exact_mod_cast congrArg (fun x : Nat => (x : Rat)) hnat

theorem encF32Mag_head (n k : Nat) :
    ∃ d ds, encF32Mag n k = d :: ds ∧ isDigitB d = true := by
  unfold encF32Mag
  by_cases hk : k = 0
  · rw [if_pos hk]
    obtain ⟨d, ds, hd⟩ := List.exists_cons_of_ne_nil (renderNat_ne_nil n)
    refine ⟨d, ds ++ [46, 48], ?_, ?_⟩
    · rw [hd]; rfl
    · exact renderNat_digits n d (by rw [hd]; simp)
  · rw [if_neg hk]
    obtain ⟨d, ds, hd⟩ := List.exists_cons_of_ne_nil (renderNat_ne_nil (n / 10 ^ k))
    refine ⟨d, ds ++ 46 :: renderNatPad k (n % 10 ^ k), ?_, ?_⟩
    · rw [hd]; rfl
    · exact renderNat_digits _ d (by rw [hd]; simp)

theorem parseJsonF32_enc (q : Rat) (b : List Nat) (h : encJsonF32 q = some b)
    (c : Nat) (hc : isDigitB c = false) (rest : List Nat) :
    parseJsonF32 (b ++ c :: rest) = some (q, c :: rest) := by
  unfold encJsonF32 at h
  cases hk : fracDigitCount q.den with
  | none => rw [hk] at h; exact absurd h (by simp)
  | some k =>
    rw [hk] at h
    simp only [Option.some.injEq] at h
    have hmag := parseJsonPosF32_mag (q.num.natAbs * (10 ^ k / q.den)) k c rest hc
    have habs := mag_div_eq_abs q k hk
    by_cases hneg : q < 0
    · rw [if_pos hneg] at h
      subst h
      show parseJsonF32 (45 :: (encF32Mag (q.num.natAbs * (10 ^ k / q.den)) k ++
        c :: rest)) = some (q, c :: rest)
      have hval : -(((q.num.natAbs * (10 ^ k / q.den) : Nat) : Rat) / 10 ^ k) = q := by
        rw [habs, abs_of_neg hneg, neg_neg]
      simp only [parseJsonF32, hmag, if_true]
      rw [hval]
    · rw [if_neg hneg] at h
      subst h
      obtain ⟨d, ds, hd, hdig⟩ := encF32Mag_head (q.num.natAbs * (10 ^ k / q.den)) k
      have hd45 : ¬ d = 45 := by
        simp only [isDigitB, decide_eq_true_eq] at hdig
        omega
      rw [hd]
      show parseJsonF32 (d :: (ds ++ c :: rest)) = some (q, c :: rest)
      simp only [parseJsonF32, if_neg hd45]
      rw [show d :: (ds ++ c :: rest) = (d :: ds) ++ c :: rest from rfl, ← hd, hmag,
        habs, abs_of_nonneg (le_of_not_lt hneg)]

/-! ## IEEE-754 binary32 bit patterns (the binary codec stores `f32` as 4 bytes) -/

/-- Magnitude of a finite binary32 from biased exponent and mantissa:
subnormals are `m * 2 ^ -149`, normals `(2 ^ 23 + m) * 2 ^ (e - 150)`. -/
def f32mag (e m : Nat) : Rat :=
  if e = 0 then (m : Rat) / 2 ^ 149
  else ((2 ^ 23 + m : Nat) : Rat) * 2 ^ e / 2 ^ 150

/-- Exact value of a finite binary32: signed magnitude. -/
def f32val (sign : Bool) (e m : Nat) : Rat :=
  if sign then -(f32mag e m) else f32mag e m

/-- Decode a 32-bit pattern into its exact rational value; `none` for the
NaN/infinity exponent, which the rational model cannot hold. -/
def decodeF32 (pat : Nat) : Option Rat :=
  if pat / 2 ^ 23 % 256 = 255 then none
  else some (f32val (decide (pat / 2 ^ 31 % 2 = 1)) (pat / 2 ^ 23 % 256) (pat % 2 ^ 23))

/-- Exact binary32 pattern of a rational, when one exists: writing
`N = |q| * 2 ^ 149`, either a subnormal (`N < 2 ^ 23`) or a normal whose
mantissa is exact.  `none` whenever `q` is not exactly an `f32` value — the
model never rounds, mirroring that the running code's values already are
`f32`s. -/
def encodeF32 (q : Rat) : Option Nat :=
  if q = 0 then some 0
  else
    if q.num.natAbs * 2 ^ 149 % q.den = 0 then
      if q.num.natAbs * 2 ^ 149 / q.den < 2 ^ 23 then
        some ((if q < 0 then 2 ^ 31 else 0) + q.num.natAbs * 2 ^ 149 / q.den)
      else
        if (q.num.natAbs * 2 ^ 149 / q.den) %
              2 ^ ((q.num.natAbs * 2 ^ 149 / q.den).log2 - 23) = 0 ∧
            (q.num.natAbs * 2 ^ 149 / q.den).log2 ≤ 276 then
          some ((if q < 0 then 2 ^ 31 else 0) +
            ((q.num.natAbs * 2 ^ 149 / q.den).log2 - 23 + 1) * 2 ^ 23 +
            (q.num.natAbs * 2 ^ 149 / q.den /
              2 ^ ((q.num.natAbs * 2 ^ 149 / q.den).log2 - 23) - 2 ^ 23))
        else none
    else none

set_option maxRecDepth 4000 in
theorem decodeF32_encodeF32 (q : Rat) (p : Nat) (h : encodeF32 q = some p) :
    decodeF32 p = some q ∧ p < 2 ^ 32 := by
  unfold encodeF32 at h
  by_cases hq0 : q = 0
  · rw [if_pos hq0] at h
    simp only [Option.some.injEq] at h
    subst h
    refine ⟨?_, by norm_num⟩
    unfold decodeF32
    rw [if_neg (by norm_num)]
    unfold f32val f32mag
    norm_num
    exact hq0.symm
  · rw [if_neg hq0] at h
    by_cases hdvd : q.num.natAbs * 2 ^ 149 % q.den = 0
    · rw [if_pos hdvd] at h
      have hden : q.den ≠ 0 := q.den_nz
      have hmul : q.num.natAbs * 2 ^ 149 / q.den * q.den = q.num.natAbs * 2 ^ 149 :=
        Nat.div_mul_cancel (Nat.dvd_of_mod_eq_zero hdvd)
      have hnum0 : q.num.natAbs ≠ 0 := by
        intro hcon
        exact hq0 (Rat.num_eq_zero.mp (Int.natAbs_eq_zero.mp hcon))
      have hN0 : q.num.natAbs * 2 ^ 149 / q.den ≠ 0 := by
        intro hcon
        rw [hcon, Nat.zero_mul] at hmul
        have hne : q.num.natAbs * 2 ^ 149 ≠ 0 := by positivity
        exact hne hmul.symm
      have habs : ((q.num.natAbs * 2 ^ 149 / q.den : Nat) : Rat) / 2 ^ 149 = |q| := by
        rw [← natAbs_div_den q,
          div_eq_div_iff (by positivity) (by exact_mod_cast hden)]
        exact_mod_cast congrArg (fun x : Nat => (x : Rat)) hmul
      obtain ⟨N, hNdef⟩ : ∃ n, n = q.num.natAbs * 2 ^ 149 / q.den := ⟨_, rfl⟩
      rw [← hNdef] at h hmul hN0 habs
      by_cases hsub : N < 2 ^ 23
      · rw [if_pos hsub] at h
        simp only [Option.some.injEq] at h
        have hval : ∀ s : Bool, f32val s 0 N = if s then -|q| else |q| := by
          intro s
          unfold f32val f32mag
          rw [if_pos rfl, habs]
        by_cases hneg : q < 0
        · rw [if_pos hneg] at h
          rw [← h]
          refine ⟨?_, by omega⟩
          unfold decodeF32
          have he : (2 ^ 31 + N) / 2 ^ 23 % 256 = 0 := by omega
          have hs : (2 ^ 31 + N) / 2 ^ 31 % 2 = 1 := by omega
          have hm : (2 ^ 31 + N) % 2 ^ 23 = N := by omega
          rw [he, hs, hm, if_neg (by omega),
            show decide ((1 : Nat) = 1) = true from by decide, hval true]
          rw [if_pos rfl, abs_of_neg hneg, neg_neg]
        · rw [if_neg hneg] at h
          rw [← h]
          refine ⟨?_, by omega⟩
          unfold decodeF32
          have he : (0 + N) / 2 ^ 23 % 256 = 0 := by omega
          have hs : (0 + N) / 2 ^ 31 % 2 = 0 := by omega
          have hm : (0 + N) % 2 ^ 23 = N := by omega
          rw [he, hs, hm, if_neg (by omega),
            show decide ((0 : Nat) = 1) = false from by decide, hval false]
          rw [if_neg (by simp), abs_of_nonneg (le_of_not_lt hneg)]
      · rw [if_neg hsub] at h
        by_cases hcond : N % 2 ^ (N.log2 - 23) = 0 ∧ N.log2 ≤ 276
        · rw [if_pos hcond] at h
          simp only [Option.some.injEq] at h
          have hL1 : 2 ^ N.log2 ≤ N := by
            rw [Nat.log2_eq_log_two]
            exact Nat.pow_log_le_self 2 hN0
          have hL2 : N < 2 ^ (N.log2 + 1) := by
            rw [Nat.log2_eq_log_two]
            exact Nat.lt_pow_succ_log_self one_lt_two _
          obtain ⟨L, hLdef⟩ : ∃ l, l = N.log2 := ⟨_, rfl⟩
          rw [← hLdef] at h hcond hL1 hL2
          obtain ⟨M, hMdef⟩ : ∃ m, m = N / 2 ^ (L - 23) := ⟨_, rfl⟩
          rw [← hMdef] at h
          have hL23 : 23 ≤ L := by
            by_contra hcon
            push_neg at hcon
            have h1 : (2 : Nat) ^ 23 ≤ N := le_of_not_lt hsub
            have h2 : (2 : Nat) ^ (L + 1) ≤ 2 ^ 23 :=
              Nat.pow_le_pow_right (by omega) (by omega)
            omega
          have hMN : M * 2 ^ (L - 23) = N := by
            rw [hMdef]
            exact Nat.div_mul_cancel (Nat.dvd_of_mod_eq_zero hcond.1)
          have hEpos : 0 < (2 : Nat) ^ (L - 23) := Nat.pos_pow_of_pos _ (by omega)
          have hsplit1 : (2 : Nat) ^ L = 2 ^ 23 * 2 ^ (L - 23) :=
            (pow_mul_pow_sub (2 : Nat) hL23).symm
          have hsplit2 : (2 : Nat) ^ (L + 1) = 2 ^ 24 * 2 ^ (L - 23) := by
            have h2 := pow_mul_pow_sub (2 : Nat) (show 24 ≤ L + 1 from by omega)
            rw [show L + 1 - 24 = L - 23 from by omega] at h2
            exact h2.symm
          have hM1 : 2 ^ 23 ≤ M := by
            rw [hMdef, Nat.le_div_iff_mul_le hEpos, ← hsplit1]
            exact hL1
          have hM2 : M < 2 ^ 24 := by
            rw [hMdef, Nat.div_lt_iff_lt_mul hEpos, ← hsplit2]
            exact hL2
          have he253 : L - 23 ≤ 253 := by
            have := hcond.2
            omega
          have hcast : ((M : Nat) : Rat) * (2 : Rat) ^ (L - 23) = ((N : Nat) : Rat) := by
            exact_mod_cast congrArg (fun x : Nat => (x : Rat)) hMN
          have hmagval : ∀ s : Bool,
              f32val s (L - 23 + 1) (M - 2 ^ 23) = if s then -|q| else |q| := by
            intro s
            unfold f32val f32mag
            rw [if_neg (show ¬ (L - 23 + 1 = 0) from by omega)]
            rw [show ((2 ^ 23 + (M - 2 ^ 23) : Nat) : Rat) = ((M : Nat) : Rat) from
              congrArg (fun x : Nat => (x : Rat)) (by omega)]
            rw [← habs]
            have hstep : ((M : Nat) : Rat) * (2 : Rat) ^ (L - 23 + 1) / 2 ^ 150 =
                ((N : Nat) : Rat) / 2 ^ 149 := by
              rw [pow_succ, show ((2 : Rat) ^ 150) = 2 ^ 149 * 2 from by
                rw [← pow_succ]]
              rw [div_eq_div_iff (by positivity) (by positivity)]
              calc ((M : Nat) : Rat) * ((2 : Rat) ^ (L - 23) * 2) * (2 : Rat) ^ 149
                  = (((M : Nat) : Rat) * (2 : Rat) ^ (L - 23)) *
                      (2 * (2 : Rat) ^ 149) := by ring
                _ = ((N : Nat) : Rat) * ((2 : Rat) ^ 149 * 2) := by rw [hcast]; ring
            rw [hstep]
          by_cases hneg : q < 0
          · rw [if_pos hneg] at h
            rw [← h]
            refine ⟨?_, by omega⟩
            unfold decodeF32
            have he : (2 ^ 31 + (L - 23 + 1) * 2 ^ 23 + (M - 2 ^ 23)) / 2 ^ 23 % 256 =
                L - 23 + 1 := by omega
            have hs : (2 ^ 31 + (L - 23 + 1) * 2 ^ 23 + (M - 2 ^ 23)) / 2 ^ 31 % 2 =
                1 := by omega
            have hm : (2 ^ 31 + (L - 23 + 1) * 2 ^ 23 + (M - 2 ^ 23)) % 2 ^ 23 =
                M - 2 ^ 23 := by omega
            rw [he, hs, hm, if_neg (by omega),
              show decide ((1 : Nat) = 1) = true from by decide, hmagval true]
            rw [if_pos rfl, abs_of_neg hneg, neg_neg]
          · rw [if_neg hneg] at h
            rw [← h]
            refine ⟨?_, by omega⟩
            unfold decodeF32
            have he : (0 + (L - 23 + 1) * 2 ^ 23 + (M - 2 ^ 23)) / 2 ^ 23 % 256 =
                L - 23 + 1 := by omega
            have hs : (0 + (L - 23 + 1) * 2 ^ 23 + (M - 2 ^ 23)) / 2 ^ 31 % 2 =
                0 := by omega
            have hm : (0 + (L - 23 + 1) * 2 ^ 23 + (M - 2 ^ 23)) % 2 ^ 23 =
                M - 2 ^ 23 := by omega
            rw [he, hs, hm, if_neg (by omega),
              show decide ((0 : Nat) = 1) = false from by decide, hmagval false]
            rw [if_neg (by simp), abs_of_nonneg (le_of_not_lt hneg)]
        · rw [if_neg hcond] at h
          exact absurd h (by simp)
    · rw [if_neg hdvd] at h
      exact absurd h (by simp)

/-! ## Binary (postcard) codec of the protocol envelope -/

/-- Postcard `f32` field: the 4 little-endian bytes of the bit pattern. -/
def encBinF32 (q : Rat) : Option (List Nat) :=
  match encodeF32 q with
  | none => none
  | some p => some (enc4LE p)

/-- Parse a postcard `f32` field. -/
def parseBinF32 (l : List Nat) : Option (Rat × List Nat) :=
  match parse4LE l with
  | none => none
  | some (p, r) =>
    match decodeF32 p with
    | none => none
    | some q => some (q, r)

theorem parseBinF32_enc (q : Rat) (b : List Nat) (h : encBinF32 q = some b)
    (rest : List Nat) : parseBinF32 (b ++ rest) = some (q, rest) := by
  unfold encBinF32 at h
  cases hp : encodeF32 q with
  | none => rw [hp] at h; exact absurd h (by simp)
  | some p =>
    rw [hp] at h
    simp only [Option.some.injEq] at h
    subst h
    have hrt := decodeF32_encodeF32 q p hp
    simp only [parseBinF32, parse4LE_enc p hrt.2 rest, hrt.1]

/-- Postcard string: varint byte length, then the bytes. -/
def encBinStr (s : List Nat) : List Nat :=
  encVarint s.length ++ s

/-- Parse a postcard string. -/
def parseBinStr (l : List Nat) : Option (List Nat × List Nat) :=
  match parseVarint l with
  | none => none
  | some (n, r) => parseBytes n r

theorem parseBinStr_enc (s rest : List Nat) :
    parseBinStr (encBinStr s ++ rest) = some (s, rest) := by
  simp only [parseBinStr, encBinStr, List.append_assoc, parseVarint_enc,
    parseBytes_enc]

/-- Postcard `TemperatureReading`: celsius then varint timestamp. -/
def encBinReading (r : TemperatureReading) : Option (List Nat) :=
  match encBinF32 r.temperature.celsius with
  | none => none
  | some fb => some (fb ++ encVarint r.timestamp)

/-- Parse a postcard `TemperatureReading`. -/
def parseBinReading (l : List Nat) : Option (TemperatureReading × List Nat) :=
  match parseBinF32 l with
  | none => none
  | some (c, r1) =>
    match parseVarint r1 with
    | none => none
    | some (t, r2) => some (⟨⟨c⟩, t⟩, r2)

theorem parseBinReading_enc (rd : TemperatureReading) (b : List Nat)
    (h : encBinReading rd = some b) (rest : List Nat) :
    parseBinReading (b ++ rest) = some (rd, rest) := by
  unfold encBinReading at h
  cases hf : encBinF32 rd.temperature.celsius with
  | none => rw [hf] at h; exact absurd h (by simp)
  | some fb =>
    rw [hf] at h
    simp only [Option.some.injEq] at h
    subst h
    have h1 := parseBinF32_enc _ fb hf (encVarint rd.timestamp ++ rest)
    simp only [parseBinReading, List.append_assoc, h1, parseVarint_enc]

/-- Postcard sequence body of readings (elements only, no count). -/
def encBinReadings : List TemperatureReading → Option (List Nat)
  | [] => some []
  | r :: t =>
    match encBinReading r, encBinReadings t with
    | some br, some bt => some (br ++ bt)
    | _, _ => none

/-- Parse `n` postcard readings. -/
def parseBinReadingsN : Nat → List Nat → Option (List TemperatureReading × List Nat)
  | 0, l => some ([], l)
  | n + 1, l =>
    match parseBinReading l with
    | none => none
    | some (r, l1) =>
      match parseBinReadingsN n l1 with
      | none => none
      | some (t, l2) => some (r :: t, l2)

theorem parseBinReadingsN_enc (rs : List TemperatureReading) : ∀ b rest : List Nat,
    encBinReadings rs = some b →
    parseBinReadingsN rs.length (b ++ rest) = some (rs, rest) := by
  induction rs with
  | nil =>
    intro b rest h
    simp only [encBinReadings, Option.some.injEq] at h
    subst h
    rfl
  | cons r t ih =>
    intro b rest h
    unfold encBinReadings at h
    cases hr : encBinReading r with
    | none => rw [hr] at h; exact absurd h (by simp)
    | some br =>
      cases ht : encBinReadings t with
      | none => rw [hr, ht] at h; exact absurd h (by simp)
      | some bt =>
        rw [hr, ht] at h
        simp only [Option.some.injEq] at h
        subst h
        have h1 := parseBinReading_enc r br hr (bt ++ rest)
        have h2 := ih bt rest ht
        simp only [List.length_cons, parseBinReadingsN, List.append_assoc, h1, h2]

/-- Postcard sequence body of strings. -/
def encBinStrItems : List (List Nat) → List Nat
  | [] => []
  | s :: t => encBinStr s ++ encBinStrItems t

/-- Postcard `Vec<String>`: varint count then elements. -/
def encBinStrList (ss : List (List Nat)) : List Nat :=
  encVarint ss.length ++ encBinStrItems ss

/-- Parse `n` postcard strings. -/
def parseBinStrN : Nat → List Nat → Option (List (List Nat) × List Nat)
  | 0, l => some ([], l)
  | n + 1, l =>
    match parseBinStr l with
    | none => none
    | some (s, l1) =>
      match parseBinStrN n l1 with
      | none => none
      | some (t, l2) => some (s :: t, l2)

theorem parseBinStrN_enc (ss : List (List Nat)) : ∀ rest : List Nat,
    parseBinStrN ss.length (encBinStrItems ss ++ rest) = some (ss, rest) := by
  induction ss with
  | nil => intro rest; rfl
  | cons s t ih =>
    intro rest
    simp only [List.length_cons, encBinStrItems, parseBinStrN, List.append_assoc,
      parseBinStr_enc, ih rest]

/-- Postcard `TemperatureStats`: three `f32` fields then varint count. -/
def encBinStats (st : TemperatureStats) : Option (List Nat) :=
  match encBinF32 st.min.celsius, encBinF32 st.max.celsius,
      encBinF32 st.average.celsius with
  | some b1, some b2, some b3 => some (b1 ++ b2 ++ b3 ++ encVarint st.count)
  | _, _, _ => none

/-- Parse a postcard `TemperatureStats`. -/
def parseBinStats (l : List Nat) : Option (TemperatureStats × List Nat) :=
  match parseBinF32 l with
  | none => none
  | some (mn, r1) =>
    match parseBinF32 r1 with
    | none => none
    | some (mx, r2) =>
      match parseBinF32 r2 with
      | none => none
      | some (av, r3) =>
        match parseVarint r3 with
        | none => none
        | some (c, r4) => some (⟨⟨mn⟩, ⟨mx⟩, ⟨av⟩, c⟩, r4)

theorem parseBinStats_enc (st : TemperatureStats) (b : List Nat)
    (h : encBinStats st = some b) (rest : List Nat) :
    parseBinStats (b ++ rest) = some (st, rest) := by
  unfold encBinStats at h
  cases h1 : encBinF32 st.min.celsius with
  | none => rw [h1] at h; exact absurd h (by simp)
  | some b1 =>
    cases h2 : encBinF32 st.max.celsius with
    | none => rw [h1, h2] at h; exact absurd h (by simp)
    | some b2 =>
      cases h3 : encBinF32 st.average.celsius with
      | none => rw [h1, h2, h3] at h; exact absurd h (by simp)
      | some b3 =>
        rw [h1, h2, h3] at h
        simp only [Option.some.injEq] at h
        subst h
        have p1 := parseBinF32_enc _ b1 h1 (b2 ++ b3 ++ encVarint st.count ++ rest)
        have p2 := parseBinF32_enc _ b2 h2 (b3 ++ encVarint st.count ++ rest)
        have p3 := parseBinF32_enc _ b3 h3 (encVarint st.count ++ rest)
        simp only [parseBinStats, List.append_assoc] at p1 p2 p3 ⊢
        simp only [p1, p2, p3, parseVarint_enc]

/-- Postcard `Command`: varint variant index then fields in order. -/
def encBinCommand : Command → Option (List Nat)
  | .getStatus => some (encVarint 0)
  | .getReading sid => some (encVarint 1 ++ encBinStr sid)
  | .setThreshold sid mn mx =>
    match encBinF32 mn, encBinF32 mx with
    | some b1, some b2 => some (encVarint 2 ++ encBinStr sid ++ b1 ++ b2)
    | _, _ => none
  | .getHistory sid n => some (encVarint 3 ++ encBinStr sid ++ encVarint n)
  | .getStats sid => some (encVarint 4 ++ encBinStr sid)
  | .calibrate sid a =>
    match encBinF32 a with
    | some b1 => some (encVarint 5 ++ encBinStr sid ++ b1)
    | none => none

/-- Parse a postcard `Command`. -/
def parseBinCommand (l : List Nat) : Option (Command × List Nat) :=
  match parseVarint l with
  | none => none
  | some (tag, r) =>
    if tag = 0 then some (.getStatus, r)
    else if tag = 1 then
      match parseBinStr r with
      | none => none
      | some (sid, r1) => some (.getReading sid, r1)
    else if tag = 2 then
      match parseBinStr r with
      | none => none
      | some (sid, r1) =>
        match parseBinF32 r1 with
        | none => none
        | some (mn, r2) =>
          match parseBinF32 r2 with
          | none => none
          | some (mx, r3) => some (.setThreshold sid mn mx, r3)
    else if tag = 3 then
      match parseBinStr r with
      | none => none
      | some (sid, r1) =>
        match parseVarint r1 with
        | none => none
        | some (n, r2) => some (.getHistory sid n, r2)
    else if tag = 4 then
      match parseBinStr r with
      | none => none
      | some (sid, r1) => some (.getStats sid, r1)
    else if tag = 5 then
      match parseBinStr r with
      | none => none
      | some (sid, r1) =>
        match parseBinF32 r1 with
        | none => none
        | some (a, r2) => some (.calibrate sid a, r2)
    else none

theorem parseBinCommand_enc (c : Command) (b : List Nat)
    (h : encBinCommand c = some b) (rest : List Nat) :
    parseBinCommand (b ++ rest) = some (c, rest) := by
  cases c with
  | getStatus =>
    simp only [encBinCommand, Option.some.injEq] at h
    subst h
    simp [parseBinCommand, parseVarint_enc, if_pos rfl]
  | getReading sid =>
    simp only [encBinCommand, Option.some.injEq] at h
    subst h
    simp [parseBinCommand, List.append_assoc, parseVarint_enc,
      parseBinStr_enc]
  | setThreshold sid mn mx =>
    simp only [encBinCommand] at h
    cases h1 : encBinF32 mn with
    | none => rw [h1] at h; exact absurd h (by simp)
    | some b1 =>
      cases h2 : encBinF32 mx with
      | none => rw [h1, h2] at h; exact absurd h (by simp)
      | some b2 =>
        rw [h1, h2] at h
        simp only [Option.some.injEq] at h
        subst h
        have p1 := parseBinF32_enc _ b1 h1 (b2 ++ rest)
        have p2 := parseBinF32_enc _ b2 h2 rest
        simp only [List.append_assoc] at p1 p2 ⊢
        simp [parseBinCommand, parseVarint_enc, parseBinStr_enc, p1, p2]
  | getHistory sid n =>
    simp only [encBinCommand, Option.some.injEq] at h
    subst h
    simp [parseBinCommand, List.append_assoc, parseVarint_enc,
      parseBinStr_enc]
  | getStats sid =>
    simp only [encBinCommand, Option.some.injEq] at h
    subst h
    simp [parseBinCommand, List.append_assoc, parseVarint_enc,
      parseBinStr_enc]
  | calibrate sid a =>
    simp only [encBinCommand] at h
    cases h1 : encBinF32 a with
    | none => rw [h1] at h; exact absurd h (by simp)
    | some b1 =>
      rw [h1] at h
      simp only [Option.some.injEq] at h
      subst h
      have p1 := parseBinF32_enc _ b1 h1 rest
      simp only [List.append_assoc] at p1 ⊢
      simp [parseBinCommand, parseVarint_enc, parseBinStr_enc, p1]

/-- Postcard `Response`: varint variant index then fields in order. -/
def encBinResponse : Response → Option (List Nat)
  | .status sensors up cnt =>
    some (encVarint 0 ++ encBinStrList sensors ++ encVarint up ++ encVarint cnt)
  | .reading sid t ts =>
    match encBinF32 t with
    | some bt => some (encVarint 1 ++ encBinStr sid ++ bt ++ encVarint ts)
    | none => none
  | .thresholdSet sid mn mx =>
    match encBinF32 mn, encBinF32 mx with
    | some b1, some b2 => some (encVarint 2 ++ encBinStr sid ++ b1 ++ b2)
    | _, _ => none
  | .history sid rs =>
    match encBinReadings rs with
    | some br => some (encVarint 3 ++ encBinStr sid ++ encVarint rs.length ++ br)
    | none => none
  | .stats sid st =>
    match encBinStats st with
    | some bs => some (encVarint 4 ++ encBinStr sid ++ bs)
    | none => none
  | .calibrationComplete sid off =>
    match encBinF32 off with
    | some bo => some (encVarint 5 ++ encBinStr sid ++ bo)
    | none => none
  | .error code msg => some (encVarint 6 ++ encVarint code ++ encBinStr msg)

/-- Parse a postcard `Response`. -/
def parseBinResponse (l : List Nat) : Option (Response × List Nat) :=
  match parseVarint l with
  | none => none
  | some (tag, r) =>
    if tag = 0 then
      match parseVarint r with
      | none => none
      | some (n, r1) =>
        match parseBinStrN n r1 with
        | none => none
        | some (sensors, r2) =>
          match parseVarint r2 with
          | none => none
          | some (up, r3) =>
            match parseVarint r3 with
            | none => none
            | some (cnt, r4) => some (.status sensors up cnt, r4)
    else if tag = 1 then
      match parseBinStr r with
      | none => none
      | some (sid, r1) =>
        match parseBinF32 r1 with
        | none => none
        | some (t, r2) =>
          match parseVarint r2 with
          | none => none
          | some (ts, r3) => some (.reading sid t ts, r3)
    else if tag = 2 then
      match parseBinStr r with
      | none => none
      | some (sid, r1) =>
        match parseBinF32 r1 with
        | none => none
        | some (mn, r2) =>
          match parseBinF32 r2 with
          | none => none
          | some (mx, r3) => some (.thresholdSet sid mn mx, r3)
    else if tag = 3 then
      match parseBinStr r with
      | none => none
      | some (sid, r1) =>
        match parseVarint r1 with
        | none => none
        | some (n, r2) =>
          match parseBinReadingsN n r2 with
          | none => none
          | some (rs, r3) => some (.history sid rs, r3)
    else if tag = 4 then
      match parseBinStr r with
      | none => none
      | some (sid, r1) =>
        match parseBinStats r1 with
        | none => none
        | some (st, r2) => some (.stats sid st, r2)
    else if tag = 5 then
      match parseBinStr r with
      | none => none
      | some (sid, r1) =>
        match parseBinF32 r1 with
        | none => none
        | some (off, r2) => some (.calibrationComplete sid off, r2)
    else if tag = 6 then
      match parseVarint r with
      | none => none
      | some (code, r1) =>
        match parseBinStr r1 with
        | none => none
        | some (msg, r2) => some (.error code msg, r2)
    else none

theorem parseBinResponse_enc (rp : Response) (b : List Nat)
    (h : encBinResponse rp = some b) (rest : List Nat) :
    parseBinResponse (b ++ rest) = some (rp, rest) := by
  cases rp with
  | status sensors up cnt =>
    simp only [encBinResponse, Option.some.injEq] at h
    subst h
    have p1 := parseBinStrN_enc sensors (encVarint up ++ encVarint cnt ++ rest)
    simp only [List.append_assoc] at p1 ⊢
    simp [parseBinResponse, encBinStrList, List.append_assoc,
      parseVarint_enc, p1]
  | reading sid t ts =>
    simp only [encBinResponse] at h
    cases h1 : encBinF32 t with
    | none => rw [h1] at h; exact absurd h (by simp)
    | some bt =>
      rw [h1] at h
      simp only [Option.some.injEq] at h
      subst h
      have p1 := parseBinF32_enc _ bt h1 (encVarint ts ++ rest)
      simp only [List.append_assoc] at p1 ⊢
      simp [parseBinResponse, parseVarint_enc, parseBinStr_enc, p1]
  | thresholdSet sid mn mx =>
    simp only [encBinResponse] at h
    cases h1 : encBinF32 mn with
    | none => rw [h1] at h; exact absurd h (by simp)
    | some b1 =>
      cases h2 : encBinF32 mx with
      | none => rw [h1, h2] at h; exact absurd h (by simp)
      | some b2 =>
        rw [h1, h2] at h
        simp only [Option.some.injEq] at h
        subst h
        have p1 := parseBinF32_enc _ b1 h1 (b2 ++ rest)
        have p2 := parseBinF32_enc _ b2 h2 rest
        simp only [List.append_assoc] at p1 p2 ⊢
        simp [parseBinResponse, parseVarint_enc, parseBinStr_enc, p1, p2]
  | history sid rs =>
    simp only [encBinResponse] at h
    cases h1 : encBinReadings rs with
    | none => rw [h1] at h; exact absurd h (by simp)
    | some br =>
      rw [h1] at h
      simp only [Option.some.injEq] at h
      subst h
      have p1 := parseBinReadingsN_enc rs br rest h1
      simp only [List.append_assoc] at p1 ⊢
      simp [parseBinResponse, parseVarint_enc, parseBinStr_enc, p1]
  | stats sid st =>
    simp only [encBinResponse] at h
    cases h1 : encBinStats st with
    | none => rw [h1] at h; exact absurd h (by simp)
    | some bs =>
      rw [h1] at h
      simp only [Option.some.injEq] at h
      subst h
      have p1 := parseBinStats_enc st bs h1 rest
      simp only [List.append_assoc] at p1 ⊢
      simp [parseBinResponse, parseVarint_enc, parseBinStr_enc, p1]
  | calibrationComplete sid off =>
    simp only [encBinResponse] at h
    cases h1 : encBinF32 off with
    | none => rw [h1] at h; exact absurd h (by simp)
    | some bo =>
      rw [h1] at h
      simp only [Option.some.injEq] at h
      subst h
      have p1 := parseBinF32_enc _ bo h1 rest
      simp only [List.append_assoc] at p1 ⊢
      simp [parseBinResponse, parseVarint_enc, parseBinStr_enc, p1]
  | error code msg =>
    simp only [encBinResponse, Option.some.injEq] at h
    subst h
    simp [parseBinResponse, List.append_assoc, parseVarint_enc,
      parseBinStr_enc]

/-- `TemperatureProtocolHandler::serialize_binary` (postcard): `u8` version
byte, varint id, then the externally indexed payload. -/
def serializeBinary (m : ProtocolMessage) : Option (List Nat) :=
  match m.payload with
  | .command c =>
    match encBinCommand c with
    | none => none
    | some bc => some (m.version :: (encVarint m.id ++ encVarint 0 ++ bc))
  | .response r =>
    match encBinResponse r with
    | none => none
    | some br => some (m.version :: (encVarint m.id ++ encVarint 1 ++ br))

/-- `TemperatureProtocolHandler::deserialize_binary` (postcard); like
postcard's `from_bytes`, trailing bytes are ignored. -/
def deserializeBinary (l : List Nat) : Option ProtocolMessage :=
  match l with
  | [] => none
  | v :: r =>
    match parseVarint r with
    | none => none
    | some (id, r1) =>
      match parseVarint r1 with
      | none => none
      | some (tag, r2) =>
        if tag = 0 then
          match parseBinCommand r2 with
          | none => none
          | some (c, _) => some ⟨v, id, .command c⟩
        else if tag = 1 then
          match parseBinResponse r2 with
          | none => none
          | some (rp, _) => some ⟨v, id, .response rp⟩
        else none

theorem deserializeBinary_serializeBinary (m : ProtocolMessage) (b : List Nat)
    (h : serializeBinary m = some b) : deserializeBinary b = some m := by
  obtain ⟨v, id, pl⟩ := m
  cases pl with
  | command c =>
    simp only [serializeBinary] at h
    cases hc : encBinCommand c with
    | none => rw [hc] at h; exact absurd h (by simp)
    | some bc =>
      rw [hc] at h
      simp only [Option.some.injEq] at h
      subst h
      have p1 := parseBinCommand_enc c bc hc []
      rw [List.append_nil] at p1
      simp [deserializeBinary, List.append_assoc, parseVarint_enc, p1]
  | response r =>
    simp only [serializeBinary] at h
    cases hr : encBinResponse r with
    | none => rw [hr] at h; exact absurd h (by simp)
    | some br =>
      rw [hr] at h
      simp only [Option.some.injEq] at h
      subst h
      have p1 := parseBinResponse_enc r br hr []
      rw [List.append_nil] at p1
      simp [deserializeBinary, List.append_assoc, parseVarint_enc, p1]

/-! ## Textual (JSON) codec of the protocol envelope -/

/-- JSON `Temperature` object `{"celsius":F}`. -/
def encJsonTemp (q : Rat) : Option (List Nat) :=
  match encJsonF32 q with
  | none => none
  | some cb => some (123 :: (strBytes "\"celsius\":" ++ cb ++ [125]))

/-- Parse a JSON `Temperature` object. -/
def parseJsonTemp (l : List Nat) : Option (Rat × List Nat) :=
  match dropLit (123 :: strBytes "\"celsius\":") l with
  | none => none
  | some r =>
    match parseJsonF32 r with
    | none => none
    | some (q, r1) =>
      match r1 with
      | 125 :: r2 => some (q, r2)
      | _ => none

theorem parseJsonTemp_enc (q : Rat) (b : List Nat) (h : encJsonTemp q = some b)
    (rest : List Nat) : parseJsonTemp (b ++ rest) = some (q, rest) := by
  unfold encJsonTemp at h
  cases hf : encJsonF32 q with
  | none => rw [hf] at h; exact absurd h (by simp)
  | some cb =>
    rw [hf] at h
    simp only [Option.some.injEq] at h
    subst h
    have p1 := parseJsonF32_enc q cb hf 125 (by decide) rest
    have hd := dropLit_self_append (123 :: strBytes "\"celsius\":")
      (cb ++ 125 :: rest)
    simp only [List.cons_append, List.append_assoc, List.nil_append] at hd ⊢
    simp only [parseJsonTemp, List.cons_append, List.append_assoc, List.nil_append,
      List.singleton_append, hd, p1]

/-- JSON `TemperatureReading` object. -/
def encJsonReading (rd : TemperatureReading) : Option (List Nat) :=
  match encJsonTemp rd.temperature.celsius with
  | none => none
  | some tb =>
    some (123 :: (strBytes "\"temperature\":" ++ tb ++
      (44 :: strBytes "\"timestamp\":") ++ renderNat rd.timestamp ++ [125]))

/-- Parse a JSON `TemperatureReading` object. -/
def parseJsonReading (l : List Nat) : Option (TemperatureReading × List Nat) :=
  match dropLit (123 :: strBytes "\"temperature\":") l with
  | none => none
  | some r =>
    match parseJsonTemp r with
    | none => none
    | some (c, r1) =>
      match dropLit (44 :: strBytes "\"timestamp\":") r1 with
      | none => none
      | some r2 =>
        match parseJsonNat r2 with
        | none => none
        | some (ts, r3) =>
          match r3 with
          | 125 :: r4 => some (⟨⟨c⟩, ts⟩, r4)
          | _ => none

theorem parseJsonReading_enc (rd : TemperatureReading) (b : List Nat)
    (h : encJsonReading rd = some b) (rest : List Nat) :
    parseJsonReading (b ++ rest) = some (rd, rest) := by
  unfold encJsonReading at h
  cases ht : encJsonTemp rd.temperature.celsius with
  | none => rw [ht] at h; exact absurd h (by simp)
  | some tb =>
    rw [ht] at h
    simp only [Option.some.injEq] at h
    subst h
    have p1 := parseJsonTemp_enc _ tb ht
      (44 :: (strBytes "\"timestamp\":" ++ (renderNat rd.timestamp ++ 125 :: rest)))
    have p2 := parseJsonNat_enc rd.timestamp 125 rest (by decide)
    have hd1 := dropLit_self_append (123 :: strBytes "\"temperature\":")
      (tb ++ 44 :: (strBytes "\"timestamp\":" ++ (renderNat rd.timestamp ++ 125 :: rest)))
    have hd2 := dropLit_self_append (44 :: strBytes "\"timestamp\":")
      (renderNat rd.timestamp ++ 125 :: rest)
    simp only [List.cons_append, List.append_assoc, List.nil_append] at hd1 hd2 p1 ⊢
    simp only [parseJsonReading, List.cons_append, List.append_assoc, List.nil_append,
      List.singleton_append, hd1, p1, hd2, p2]

/-- Tail items of a JSON array of readings (a comma before each element). -/
def encJsonReadingItems : List TemperatureReading → Option (List Nat)
  | [] => some []
  | r :: t =>
    match encJsonReading r, encJsonReadingItems t with
    | some br, some bt => some (44 :: (br ++ bt))
    | _, _ => none

/-- A JSON array of readings. -/
def encJsonReadingList (rs : List TemperatureReading) : Option (List Nat) :=
  match rs with
  | [] => some (strBytes "[]")
  | r :: t =>
    match encJsonReading r, encJsonReadingItems t with
    | some br, some bt => some (91 :: (br ++ bt ++ [93]))
    | _, _ => none

/-- Parse array items of readings, fuelled by the element count bound. -/
def parseJsonReadingItems : Nat → List Nat → Option (List TemperatureReading × List Nat)
  | 0, _ => none
  | F + 1, l =>
    match l with
    | 93 :: rest => some ([], rest)
    | 44 :: rest =>
      match parseJsonReading rest with
      | none => none
      | some (r, r1) =>
        match parseJsonReadingItems F r1 with
        | none => none
        | some (t, r2) => some (r :: t, r2)
    | _ => none

/-- Parse a JSON array of readings. -/
def parseJsonReadingList (l : List Nat) : Option (List TemperatureReading × List Nat) :=
  match l with
  | 91 :: 93 :: rest => some ([], rest)
  | 91 :: rest =>
    match parseJsonReading rest with
    | none => none
    | some (r, r1) =>
      match parseJsonReadingItems (r1.length + 1) r1 with
      | none => none
      | some (t, r2) => some (r :: t, r2)
  | _ => none

theorem parseJsonReadingItems_enc (t : List TemperatureReading) :
    ∀ (F : Nat) (bt rest : List Nat), t.length < F →
      encJsonReadingItems t = some bt →
      parseJsonReadingItems F (bt ++ 93 :: rest) = some (t, rest) := by
  induction t with
  | nil =>
    intro F bt rest hF h
    simp only [encJsonReadingItems, Option.some.injEq] at h
    subst h
    cases F with
    | zero => omega
    | succ F => rfl
  | cons r t ih =>
    intro F bt rest hF h
    simp only [encJsonReadingItems] at h
    cases hr : encJsonReading r with
    | none => rw [hr] at h; exact absurd h (by simp)
    | some br =>
      cases hts : encJsonReadingItems t with
      | none => rw [hr, hts] at h; exact absurd h (by simp)
      | some bt' =>
        rw [hr, hts] at h
        simp only [Option.some.injEq] at h
        subst h
        cases F with
        | zero => omega
        | succ F =>
          have p1 := parseJsonReading_enc r br hr (bt' ++ 93 :: rest)
          have p2 := ih F bt' rest (by simp at hF; omega) hts
          simp only [List.cons_append, List.append_assoc, List.nil_append] at p1 ⊢
          simp only [parseJsonReadingItems, List.cons_append, List.append_assoc, List.nil_append,
            p1, p2]

theorem encJsonReadingItems_length (t : List TemperatureReading) :
    ∀ bt : List Nat, encJsonReadingItems t = some bt → t.length ≤ bt.length := by
  induction t with
  | nil =>
    intro bt h
    simp only [encJsonReadingItems, Option.some.injEq] at h
    subst h
    simp
  | cons r t ih =>
    intro bt h
    simp only [encJsonReadingItems] at h
    cases hr : encJsonReading r with
    | none => rw [hr] at h; exact absurd h (by simp)
    | some br =>
      cases hts : encJsonReadingItems t with
      | none => rw [hr, hts] at h; exact absurd h (by simp)
      | some bt' =>
        rw [hr, hts] at h
        simp only [Option.some.injEq] at h
        subst h
        have := ih bt' hts
        simp only [List.length_cons, List.length_append]
        omega

theorem parseJsonReadingList_enc (rs : List TemperatureReading) (b : List Nat)
    (h : encJsonReadingList rs = some b) (rest : List Nat) :
    parseJsonReadingList (b ++ rest) = some (rs, rest) := by
  cases rs with
  | nil =>
    simp only [encJsonReadingList, Option.some.injEq] at h
    subst h
    rfl
  | cons r t =>
    simp only [encJsonReadingList] at h
    cases hr : encJsonReading r with
    | none => rw [hr] at h; exact absurd h (by simp)
    | some br =>
      cases hts : encJsonReadingItems t with
      | none => rw [hr, hts] at h; exact absurd h (by simp)
      | some bt =>
        rw [hr, hts] at h
        simp only [Option.some.injEq] at h
        subst h
        obtain ⟨ds, hbr⟩ : ∃ ds, br = 123 :: ds := by
          unfold encJsonReading at hr
          cases hx : encJsonTemp r.temperature.celsius with
          | none => rw [hx] at hr; exact absurd hr (by simp)
          | some tb =>
            rw [hx] at hr
            simp only [Option.some.injEq] at hr
            exact ⟨_, hr.symm⟩
        subst hbr
        have p1 := parseJsonReading_enc r _ hr (bt ++ 93 :: rest)
        have hlen := encJsonReadingItems_length t bt hts
        have p2 := parseJsonReadingItems_enc t ((bt ++ 93 :: rest).length + 1) bt rest
          (by simp only [List.length_append, List.length_cons]; omega) hts
        simp only [List.cons_append, List.append_assoc, List.nil_append] at p1 ⊢
        simp only [parseJsonReadingList, List.cons_append, List.append_assoc, List.nil_append, p1, p2]

/-- Tail items of a JSON array of strings. -/
def encJsonStrItems : List (List Nat) → List Nat
  | [] => []
  | s :: t => 44 :: (jstr s ++ encJsonStrItems t)

/-- A JSON array of strings. -/
def encJsonStrList (ss : List (List Nat)) : List Nat :=
  match ss with
  | [] => strBytes "[]"
  | s :: t => 91 :: (jstr s ++ encJsonStrItems t ++ [93])

/-- Parse array items of strings, fuelled by the element count bound. -/
def parseJsonStrItems : Nat → List Nat → Option (List (List Nat) × List Nat)
  | 0, _ => none
  | F + 1, l =>
    match l with
    | 93 :: rest => some ([], rest)
    | 44 :: rest =>
      match parseJsonStr rest with
      | none => none
      | some (s, r1) =>
        match parseJsonStrItems F r1 with
        | none => none
        | some (t, r2) => some (s :: t, r2)
    | _ => none

/-- Parse a JSON array of strings. -/
def parseJsonStrList (l : List Nat) : Option (List (List Nat) × List Nat) :=
  match l with
  | 91 :: 93 :: rest => some ([], rest)
  | 91 :: rest =>
    match parseJsonStr rest with
    | none => none
    | some (s, r1) =>
      match parseJsonStrItems (r1.length + 1) r1 with
      | none => none
      | some (t, r2) => some (s :: t, r2)
  | _ => none

theorem parseJsonStrItems_enc (t : List (List Nat)) :
    ∀ (F : Nat) (rest : List Nat), t.length < F →
      parseJsonStrItems F (encJsonStrItems t ++ 93 :: rest) = some (t, rest) := by
  induction t with
  | nil =>
    intro F rest hF
    cases F with
    | zero => omega
    | succ F => rfl
  | cons s t ih =>
    intro F rest hF
    cases F with
    | zero => omega
    | succ F =>
      have p1 := parseJsonStr_enc s (encJsonStrItems t ++ 93 :: rest)
      have p2 := ih F rest (by simp at hF; omega)
      simp only [encJsonStrItems, List.cons_append, List.append_assoc,
        List.nil_append] at p1 ⊢
      simp only [parseJsonStrItems, List.cons_append, List.append_assoc,
        List.nil_append, p1, p2]

theorem encJsonStrItems_length (t : List (List Nat)) :
    t.length ≤ (encJsonStrItems t).length := by
  induction t with
  | nil => simp [encJsonStrItems]
  | cons s t ih =>
    simp only [encJsonStrItems, List.length_cons, List.length_append]
    omega

theorem parseJsonStrList_enc (ss : List (List Nat)) (rest : List Nat) :
    parseJsonStrList (encJsonStrList ss ++ rest) = some (ss, rest) := by
  cases ss with
  | nil => rfl
  | cons s t =>
    have p1 := parseJsonStr_enc s (encJsonStrItems t ++ 93 :: rest)
    have p2 := parseJsonStrItems_enc t ((encJsonStrItems t ++ 93 :: rest).length + 1)
      rest (by
        have := encJsonStrItems_length t
        simp only [List.length_append, List.length_cons]
        omega)
    simp only [jstr, List.cons_append, List.append_assoc, List.nil_append] at p1 ⊢
    simp only [encJsonStrList, parseJsonStrList, jstr, List.cons_append,
      List.append_assoc, List.nil_append, p1, p2]

/-- JSON `TemperatureStats` object. -/
def encJsonStats (st : TemperatureStats) : Option (List Nat) :=
  match encJsonTemp st.min.celsius, encJsonTemp st.max.celsius,
      encJsonTemp st.average.celsius with
  | some b1, some b2, some b3 =>
    some (123 :: (strBytes "\"min\":" ++ b1 ++ (44 :: strBytes "\"max\":") ++ b2 ++
      (44 :: strBytes "\"average\":") ++ b3 ++ (44 :: strBytes "\"count\":") ++
      renderNat st.count ++ [125]))
  | _, _, _ => none

/-- Parse a JSON `TemperatureStats` object. -/
def parseJsonStats (l : List Nat) : Option (TemperatureStats × List Nat) :=
  match dropLit (123 :: strBytes "\"min\":") l with
  | none => none
  | some r =>
    match parseJsonTemp r with
    | none => none
    | some (mn, r1) =>
      match dropLit (44 :: strBytes "\"max\":") r1 with
      | none => none
      | some r2 =>
        match parseJsonTemp r2 with
        | none => none
        | some (mx, r3) =>
          match dropLit (44 :: strBytes "\"average\":") r3 with
          | none => none
          | some r4 =>
            match parseJsonTemp r4 with
            | none => none
            | some (av, r5) =>
              match dropLit (44 :: strBytes "\"count\":") r5 with
              | none => none
              | some r6 =>
                match parseJsonNat r6 with
                | none => none
                | some (c, r7) =>
                  match r7 with
                  | 125 :: r8 => some (⟨⟨mn⟩, ⟨mx⟩, ⟨av⟩, c⟩, r8)
                  | _ => none

theorem parseJsonStats_enc (st : TemperatureStats) (b : List Nat)
    (h : encJsonStats st = some b) (rest : List Nat) :
    parseJsonStats (b ++ rest) = some (st, rest) := by
  unfold encJsonStats at h
  cases h1 : encJsonTemp st.min.celsius with
  | none => rw [h1] at h; exact absurd h (by simp)
  | some b1 =>
  cases h2 : encJsonTemp st.max.celsius with
  | none => rw [h1, h2] at h; exact absurd h (by simp)
  | some b2 =>
  cases h3 : encJsonTemp st.average.celsius with
  | none => rw [h1, h2, h3] at h; exact absurd h (by simp)
  | some b3 =>
  rw [h1, h2, h3] at h
  simp only [Option.some.injEq] at h
  subst h
  have q1 := parseJsonTemp_enc _ b1 h1
    (44 :: (strBytes "\"max\":" ++ (b2 ++ (44 :: (strBytes "\"average\":" ++ (b3 ++
      (44 :: (strBytes "\"count\":" ++ (renderNat st.count ++ 125 :: rest)))))))))
  have q2 := parseJsonTemp_enc _ b2 h2
    (44 :: (strBytes "\"average\":" ++ (b3 ++
      (44 :: (strBytes "\"count\":" ++ (renderNat st.count ++ 125 :: rest))))))
  have q3 := parseJsonTemp_enc _ b3 h3
    (44 :: (strBytes "\"count\":" ++ (renderNat st.count ++ 125 :: rest)))
  have q4 := parseJsonNat_enc st.count 125 rest (by decide)
  have d1 := dropLit_self_append (123 :: strBytes "\"min\":")
    (b1 ++ 44 :: (strBytes "\"max\":" ++ (b2 ++ (44 :: (strBytes "\"average\":" ++ (b3 ++
      (44 :: (strBytes "\"count\":" ++ (renderNat st.count ++ 125 :: rest)))))))))
  have d2 := dropLit_self_append (44 :: strBytes "\"max\":")
    (b2 ++ (44 :: (strBytes "\"average\":" ++ (b3 ++
      (44 :: (strBytes "\"count\":" ++ (renderNat st.count ++ 125 :: rest)))))))
  have d3 := dropLit_self_append (44 :: strBytes "\"average\":")
    (b3 ++ (44 :: (strBytes "\"count\":" ++ (renderNat st.count ++ 125 :: rest))))
  have d4 := dropLit_self_append (44 :: strBytes "\"count\":")
    (renderNat st.count ++ 125 :: rest)
  simp only [List.cons_append, List.append_assoc, List.nil_append] at q1 q2 q3 d1 d2 d3 d4 ⊢
  simp only [parseJsonStats, List.cons_append, List.append_assoc, List.nil_append,
    d1, q1, d2, q2, d3, q3, d4, q4]

/-- Step lemma: `dropLit` strips one matching literal byte. -/
theorem dropLit_cons (a : Nat) (p l : List Nat) :
    dropLit (a :: p) (a :: l) = dropLit p l := by
  simp [dropLit]

theorem isDigitB_44 : isDigitB 44 = false := by decide

theorem isDigitB_125 : isDigitB 125 = false := by decide

/-- Modelled from the spec: JSON encoding of `Command` under the
externally tagged `serde` enum representation. -/
def encJsonCommand : Command → Option (List Nat)
  | .getStatus => some (jstr (strBytes "GetStatus"))
  | .getReading sid =>
    some (123 :: (jstr (strBytes "GetReading") ++
      (58 :: 123 :: strBytes "\"sensor_id\":") ++ jstr sid ++ [125, 125]))
  | .setThreshold sid mn mx =>
    match encJsonF32 mn, encJsonF32 mx with
    | some b1, some b2 =>
      some (123 :: (jstr (strBytes "SetThreshold") ++
        (58 :: 123 :: strBytes "\"sensor_id\":") ++ jstr sid ++
        (44 :: strBytes "\"min_temp\":") ++ b1 ++
        (44 :: strBytes "\"max_temp\":") ++ b2 ++ [125, 125]))
    | _, _ => none
  | .getHistory sid n =>
    some (123 :: (jstr (strBytes "GetHistory") ++
      (58 :: 123 :: strBytes "\"sensor_id\":") ++ jstr sid ++
      (44 :: strBytes "\"last_n\":") ++ renderNat n ++ [125, 125]))
  | .getStats sid =>
    some (123 :: (jstr (strBytes "GetStats") ++
      (58 :: 123 :: strBytes "\"sensor_id\":") ++ jstr sid ++ [125, 125]))
  | .calibrate sid a =>
    match encJsonF32 a with
    | some b1 =>
      some (123 :: (jstr (strBytes "Calibrate") ++
        (58 :: 123 :: strBytes "\"sensor_id\":") ++ jstr sid ++
        (44 :: strBytes "\"actual_temp\":") ++ b1 ++ [125, 125]))
    | none => none

/-- Modelled from the spec: parse a JSON-encoded `Command`. -/
def parseJsonCommand (l : List Nat) : Option (Command × List Nat) :=
  match l with
  | 34 :: r =>
    match parseStrBody r with
    | none => none
    | some (name, r1) =>
      if name = strBytes "GetStatus" then some (.getStatus, r1) else none
  | 123 :: r =>
    match parseJsonStr r with
    | none => none
    | some (name, r1) =>
      match dropLit (58 :: 123 :: strBytes "\"sensor_id\":") r1 with
      | none => none
      | some r2 =>
        match parseJsonStr r2 with
        | none => none
        | some (sid, r3) =>
          if name = strBytes "GetReading" then
            match r3 with
            | 125 :: 125 :: r4 => some (.getReading sid, r4)
            | _ => none
          else if name = strBytes "SetThreshold" then
            match dropLit (44 :: strBytes "\"min_temp\":") r3 with
            | none => none
            | some r4 =>
              match parseJsonF32 r4 with
              | none => none
              | some (mn, r5) =>
                match dropLit (44 :: strBytes "\"max_temp\":") r5 with
                | none => none
                | some r6 =>
                  match parseJsonF32 r6 with
                  | none => none
                  | some (mx, r7) =>
                    match r7 with
                    | 125 :: 125 :: r8 => some (.setThreshold sid mn mx, r8)
                    | _ => none
          else if name = strBytes "GetHistory" then
            match dropLit (44 :: strBytes "\"last_n\":") r3 with
            | none => none
            | some r4 =>
              match parseJsonNat r4 with
              | none => none
              | some (n, r5) =>
                match r5 with
                | 125 :: 125 :: r6 => some (.getHistory sid n, r6)
                | _ => none
          else if name = strBytes "GetStats" then
            match r3 with
            | 125 :: 125 :: r4 => some (.getStats sid, r4)
            | _ => none
          else if name = strBytes "Calibrate" then
            match dropLit (44 :: strBytes "\"actual_temp\":") r3 with
            | none => none
            | some r4 =>
              match parseJsonF32 r4 with
              | none => none
              | some (a, r5) =>
                match r5 with
                | 125 :: 125 :: r6 => some (.calibrate sid a, r6)
                | _ => none
          else none
  | _ => none

theorem parseJsonCommand_enc (c : Command) (b : List Nat)
    (h : encJsonCommand c = some b) (rest : List Nat) :
    parseJsonCommand (b ++ rest) = some (c, rest) := by
  cases c with
  | getStatus =>
    simp only [encJsonCommand, Option.some.injEq] at h
    subst h
    have p0 := parseStrBody_enc (strBytes "GetStatus") rest
    simp only [jstr, parseJsonCommand, List.cons_append, List.append_assoc,
      List.nil_append, List.singleton_append, p0,
      if_pos (Eq.refl (strBytes "GetStatus")), if_true]
  | getReading sid =>
    simp only [encJsonCommand, Option.some.injEq] at h
    subst h
    simp only [parseJsonCommand, List.cons_append, List.append_assoc,
      List.nil_append, parseJsonStr_enc, dropLit_cons, dropLit_self_append,
      if_pos (Eq.refl (strBytes "GetReading")), if_true]
  | setThreshold sid mn mx =>
    simp only [encJsonCommand] at h
    cases h1 : encJsonF32 mn with
    | none => rw [h1] at h; exact absurd h (by simp)
    | some b1 =>
    cases h2 : encJsonF32 mx with
    | none => rw [h1, h2] at h; exact absurd h (by simp)
    | some b2 =>
    rw [h1, h2] at h
    simp only [Option.some.injEq] at h
    subst h
    have hne1 : strBytes "SetThreshold" ≠ strBytes "GetReading" := by decide
    have q1 := parseJsonF32_enc mn b1 h1 44 (by decide)
    have q2 := parseJsonF32_enc mx b2 h2 125 (by decide)
    simp only [parseJsonCommand, List.cons_append, List.append_assoc,
      List.nil_append, parseJsonStr_enc, dropLit_cons, dropLit_self_append,
      q1, q2, if_neg hne1, if_pos (Eq.refl (strBytes "SetThreshold")), if_true]
  | getHistory sid n =>
    simp only [encJsonCommand, Option.some.injEq] at h
    subst h
    have hne1 : strBytes "GetHistory" ≠ strBytes "GetReading" := by decide
    have hne2 : strBytes "GetHistory" ≠ strBytes "SetThreshold" := by decide
    simp only [parseJsonCommand, List.cons_append, List.append_assoc,
      List.nil_append, parseJsonStr_enc, dropLit_cons, dropLit_self_append,
      parseJsonNat_enc, isDigitB_125, if_neg hne1, if_neg hne2,
      if_pos (Eq.refl (strBytes "GetHistory")), if_true]
  | getStats sid =>
    simp only [encJsonCommand, Option.some.injEq] at h
    subst h
    have hne1 : strBytes "GetStats" ≠ strBytes "GetReading" := by decide
    have hne2 : strBytes "GetStats" ≠ strBytes "SetThreshold" := by decide
    have hne3 : strBytes "GetStats" ≠ strBytes "GetHistory" := by decide
    simp only [parseJsonCommand, List.cons_append, List.append_assoc,
      List.nil_append, parseJsonStr_enc, dropLit_cons, dropLit_self_append,
      if_neg hne1, if_neg hne2, if_neg hne3,
      if_pos (Eq.refl (strBytes "GetStats")), if_true]
  | calibrate sid a =>
    simp only [encJsonCommand] at h
    cases h1 : encJsonF32 a with
    | none => rw [h1] at h; exact absurd h (by simp)
    | some b1 =>
    rw [h1] at h
    simp only [Option.some.injEq] at h
    subst h
    have hne1 : strBytes "Calibrate" ≠ strBytes "GetReading" := by decide
    have hne2 : strBytes "Calibrate" ≠ strBytes "SetThreshold" := by decide
    have hne3 : strBytes "Calibrate" ≠ strBytes "GetHistory" := by decide
    have hne4 : strBytes "Calibrate" ≠ strBytes "GetStats" := by decide
    have q1 := parseJsonF32_enc a b1 h1 125 (by decide)
    simp only [parseJsonCommand, List.cons_append, List.append_assoc,
      List.nil_append, parseJsonStr_enc, dropLit_cons, dropLit_self_append,
      q1, if_neg hne1, if_neg hne2, if_neg hne3, if_neg hne4,
      if_pos (Eq.refl (strBytes "Calibrate")), if_true]

/-- Modelled from the spec: JSON encoding of `Response` under the
externally tagged `serde` enum representation. -/
def encJsonResponse : Response → Option (List Nat)
  | .status sensors up cnt =>
    some (123 :: (jstr (strBytes "Status") ++
      (58 :: 123 :: strBytes "\"active_sensors\":") ++ encJsonStrList sensors ++
      (44 :: strBytes "\"uptime_seconds\":") ++ renderNat up ++
      (44 :: strBytes "\"readings_count\":") ++ renderNat cnt ++ [125, 125]))
  | .reading sid t ts =>
    match encJsonF32 t with
    | some bt =>
      some (123 :: (jstr (strBytes "Reading") ++
        (58 :: 123 :: strBytes "\"sensor_id\":") ++ jstr sid ++
        (44 :: strBytes "\"temperature\":") ++ bt ++
        (44 :: strBytes "\"timestamp\":") ++ renderNat ts ++ [125, 125]))
    | none => none
  | .thresholdSet sid mn mx =>
    match encJsonF32 mn, encJsonF32 mx with
    | some b1, some b2 =>
      some (123 :: (jstr (strBytes "ThresholdSet") ++
        (58 :: 123 :: strBytes "\"sensor_id\":") ++ jstr sid ++
        (44 :: strBytes "\"min_temp\":") ++ b1 ++
        (44 :: strBytes "\"max_temp\":") ++ b2 ++ [125, 125]))
    | _, _ => none
  | .history sid rs =>
    match encJsonReadingList rs with
    | some br =>
      some (123 :: (jstr (strBytes "History") ++
        (58 :: 123 :: strBytes "\"sensor_id\":") ++ jstr sid ++
        (44 :: strBytes "\"readings\":") ++ br ++ [125, 125]))
    | none => none
  | .stats sid st =>
    match encJsonStats st with
    | some bs =>
      some (123 :: (jstr (strBytes "Stats") ++
        (58 :: 123 :: strBytes "\"sensor_id\":") ++ jstr sid ++
        (44 :: strBytes "\"stats\":") ++ bs ++ [125, 125]))
    | none => none
  | .calibrationComplete sid off =>
    match encJsonF32 off with
    | some bo =>
      some (123 :: (jstr (strBytes "CalibrationComplete") ++
        (58 :: 123 :: strBytes "\"sensor_id\":") ++ jstr sid ++
        (44 :: strBytes "\"offset_adjustment\":") ++ bo ++ [125, 125]))
    | none => none
  | .error code msg =>
    some (123 :: (jstr (strBytes "Error") ++
      (58 :: 123 :: strBytes "\"code\":") ++ renderNat code ++
      (44 :: strBytes "\"message\":") ++ jstr msg ++ [125, 125]))

/-- Modelled from the spec: parse a JSON-encoded `Response`. -/
def parseJsonResponse (l : List Nat) : Option (Response × List Nat) :=
  match l with
  | 123 :: r =>
    match parseJsonStr r with
    | none => none
    | some (name, r1) =>
      if name = strBytes "Status" then
        match dropLit (58 :: 123 :: strBytes "\"active_sensors\":") r1 with
        | none => none
        | some r2 =>
          match parseJsonStrList r2 with
          | none => none
          | some (ss, r3) =>
            match dropLit (44 :: strBytes "\"uptime_seconds\":") r3 with
            | none => none
            | some r4 =>
              match parseJsonNat r4 with
              | none => none
              | some (up, r5) =>
                match dropLit (44 :: strBytes "\"readings_count\":") r5 with
                | none => none
                | some r6 =>
                  match parseJsonNat r6 with
                  | none => none
                  | some (cnt, r7) =>
                    match r7 with
                    | 125 :: 125 :: r8 => some (.status ss up cnt, r8)
                    | _ => none
      else if name = strBytes "Error" then
        match dropLit (58 :: 123 :: strBytes "\"code\":") r1 with
        | none => none
        | some r2 =>
          match parseJsonNat r2 with
          | none => none
          | some (code, r3) =>
            match dropLit (44 :: strBytes "\"message\":") r3 with
            | none => none
            | some r4 =>
              match parseJsonStr r4 with
              | none => none
              | some (msg, r5) =>
                match r5 with
                | 125 :: 125 :: r6 => some (.error code msg, r6)
                | _ => none
      else
        match dropLit (58 :: 123 :: strBytes "\"sensor_id\":") r1 with
        | none => none
        | some r2 =>
          match parseJsonStr r2 with
          | none => none
          | some (sid, r3) =>
            if name = strBytes "Reading" then
              match dropLit (44 :: strBytes "\"temperature\":") r3 with
              | none => none
              | some r4 =>
                match parseJsonF32 r4 with
                | none => none
                | some (t, r5) =>
                  match dropLit (44 :: strBytes "\"timestamp\":") r5 with
                  | none => none
                  | some r6 =>
                    match parseJsonNat r6 with
                    | none => none
                    | some (ts, r7) =>
                      match r7 with
                      | 125 :: 125 :: r8 => some (.reading sid t ts, r8)
                      | _ => none
            else if name = strBytes "ThresholdSet" then
              match dropLit (44 :: strBytes "\"min_temp\":") r3 with
              | none => none
              | some r4 =>
                match parseJsonF32 r4 with
                | none => none
                | some (mn, r5) =>
                  match dropLit (44 :: strBytes "\"max_temp\":") r5 with
                  | none => none
                  | some r6 =>
                    match parseJsonF32 r6 with
                    | none => none
                    | some (mx, r7) =>
                      match r7 with
                      | 125 :: 125 :: r8 => some (.thresholdSet sid mn mx, r8)
                      | _ => none
            else if name = strBytes "History" then
              match dropLit (44 :: strBytes "\"readings\":") r3 with
              | none => none
              | some r4 =>
                match parseJsonReadingList r4 with
                | none => none
                | some (rs, r5) =>
                  match r5 with
                  | 125 :: 125 :: r6 => some (.history sid rs, r6)
                  | _ => none
            else if name = strBytes "Stats" then
              match dropLit (44 :: strBytes "\"stats\":") r3 with
              | none => none
              | some r4 =>
                match parseJsonStats r4 with
                | none => none
                | some (st, r5) =>
                  match r5 with
                  | 125 :: 125 :: r6 => some (.stats sid st, r6)
                  | _ => none
            else if name = strBytes "CalibrationComplete" then
              match dropLit (44 :: strBytes "\"offset_adjustment\":") r3 with
              | none => none
              | some r4 =>
                match parseJsonF32 r4 with
                | none => none
                | some (off, r5) =>
                  match r5 with
                  | 125 :: 125 :: r6 => some (.calibrationComplete sid off, r6)
                  | _ => none
            else none
  | _ => none

theorem parseJsonResponse_enc (r : Response) (b : List Nat)
    (h : encJsonResponse r = some b) (rest : List Nat) :
    parseJsonResponse (b ++ rest) = some (r, rest) := by
  cases r with
  | status sensors up cnt =>
    simp only [encJsonResponse, Option.some.injEq] at h
    subst h
    simp only [parseJsonResponse, List.cons_append, List.append_assoc,
      List.nil_append, parseJsonStr_enc, dropLit_cons, dropLit_self_append,
      parseJsonStrList_enc, parseJsonNat_enc, isDigitB_44, isDigitB_125,
      if_pos (Eq.refl (strBytes "Status")), if_true]
  | reading sid t ts =>
    simp only [encJsonResponse] at h
    cases h1 : encJsonF32 t with
    | none => rw [h1] at h; exact absurd h (by simp)
    | some bt =>
    rw [h1] at h
    simp only [Option.some.injEq] at h
    subst h
    have hne1 : strBytes "Reading" ≠ strBytes "Status" := by decide
    have hne2 : strBytes "Reading" ≠ strBytes "Error" := by decide
    have q1 := parseJsonF32_enc t bt h1 44 (by decide)
    simp only [parseJsonResponse, List.cons_append, List.append_assoc,
      List.nil_append, parseJsonStr_enc, dropLit_cons, dropLit_self_append,
      q1, parseJsonNat_enc, isDigitB_125, if_neg hne1, if_neg hne2,
      if_pos (Eq.refl (strBytes "Reading")), if_true]
  | thresholdSet sid mn mx =>
    simp only [encJsonResponse] at h
    cases h1 : encJsonF32 mn with
    | none => rw [h1] at h; exact absurd h (by simp)
    | some b1 =>
    cases h2 : encJsonF32 mx with
    | none => rw [h1, h2] at h; exact absurd h (by simp)
    | some b2 =>
    rw [h1, h2] at h
    simp only [Option.some.injEq] at h
    subst h
    have hne1 : strBytes "ThresholdSet" ≠ strBytes "Status" := by decide
    have hne2 : strBytes "ThresholdSet" ≠ strBytes "Error" := by decide
    have hne3 : strBytes "ThresholdSet" ≠ strBytes "Reading" := by decide
    have q1 := parseJsonF32_enc mn b1 h1 44 (by decide)
    have q2 := parseJsonF32_enc mx b2 h2 125 (by decide)
    simp only [parseJsonResponse, List.cons_append, List.append_assoc,
      List.nil_append, parseJsonStr_enc, dropLit_cons, dropLit_self_append,
      q1, q2, if_neg hne1, if_neg hne2, if_neg hne3,
      if_pos (Eq.refl (strBytes "ThresholdSet")), if_true]
  | history sid rs =>
    simp only [encJsonResponse] at h
    cases h1 : encJsonReadingList rs with
    | none => rw [h1] at h; exact absurd h (by simp)
    | some br =>
    rw [h1] at h
    simp only [Option.some.injEq] at h
    subst h
    have hne1 : strBytes "History" ≠ strBytes "Status" := by decide
    have hne2 : strBytes "History" ≠ strBytes "Error" := by decide
    have hne3 : strBytes "History" ≠ strBytes "Reading" := by decide
    have hne4 : strBytes "History" ≠ strBytes "ThresholdSet" := by decide
    have q1 := parseJsonReadingList_enc rs br h1
    simp only [parseJsonResponse, List.cons_append, List.append_assoc,
      List.nil_append, parseJsonStr_enc, dropLit_cons, dropLit_self_append,
      q1, if_neg hne1, if_neg hne2, if_neg hne3, if_neg hne4,
      if_pos (Eq.refl (strBytes "History")), if_true]
  | stats sid st =>
    simp only [encJsonResponse] at h
    cases h1 : encJsonStats st with
    | none => rw [h1] at h; exact absurd h (by simp)
    | some bs =>
    rw [h1] at h
    simp only [Option.some.injEq] at h
    subst h
    have hne1 : strBytes "Stats" ≠ strBytes "Status" := by decide
    have hne2 : strBytes "Stats" ≠ strBytes "Error" := by decide
    have hne3 : strBytes "Stats" ≠ strBytes "Reading" := by decide
    have hne4 : strBytes "Stats" ≠ strBytes "ThresholdSet" := by decide
    have hne5 : strBytes "Stats" ≠ strBytes "History" := by decide
    have q1 := parseJsonStats_enc st bs h1
    simp only [parseJsonResponse, List.cons_append, List.append_assoc,
      List.nil_append, parseJsonStr_enc, dropLit_cons, dropLit_self_append,
      q1, if_neg hne1, if_neg hne2, if_neg hne3, if_neg hne4, if_neg hne5,
      if_pos (Eq.refl (strBytes "Stats")), if_true]
  | calibrationComplete sid off =>
    simp only [encJsonResponse] at h
    cases h1 : encJsonF32 off with
    | none => rw [h1] at h; exact absurd h (by simp)
    | some bo =>
    rw [h1] at h
    simp only [Option.some.injEq] at h
    subst h
    have hne1 : strBytes "CalibrationComplete" ≠ strBytes "Status" := by decide
    have hne2 : strBytes "CalibrationComplete" ≠ strBytes "Error" := by decide
    have hne3 : strBytes "CalibrationComplete" ≠ strBytes "Reading" := by decide
    have hne4 : strBytes "CalibrationComplete" ≠ strBytes "ThresholdSet" := by decide
    have hne5 : strBytes "CalibrationComplete" ≠ strBytes "History" := by decide
    have hne6 : strBytes "CalibrationComplete" ≠ strBytes "Stats" := by decide
    have q1 := parseJsonF32_enc off bo h1 125 (by decide)
    simp only [parseJsonResponse, List.cons_append, List.append_assoc,
      List.nil_append, parseJsonStr_enc, dropLit_cons, dropLit_self_append,
      q1, if_neg hne1, if_neg hne2, if_neg hne3, if_neg hne4, if_neg hne5,
      if_neg hne6, if_pos (Eq.refl (strBytes "CalibrationComplete")), if_true]
  | error code msg =>
    simp only [encJsonResponse, Option.some.injEq] at h
    subst h
    have hne1 : strBytes "Error" ≠ strBytes "Status" := by decide
    simp only [parseJsonResponse, List.cons_append, List.append_assoc,
      List.nil_append, parseJsonStr_enc, dropLit_cons, dropLit_self_append,
      parseJsonNat_enc, isDigitB_44, if_neg hne1,
      if_pos (Eq.refl (strBytes "Error")), if_true]

/-- Modelled from the spec: `serialize_json` — the JSON wire form of a
`ProtocolMessage` produced by `serde_json::to_string` (field order is
declaration order, enums externally tagged, no whitespace). -/
def serializeJson (m : ProtocolMessage) : Option (List Nat) :=
  match m.payload with
  | .command c =>
    match encJsonCommand c with
    | none => none
    | some pc =>
      some (123 :: (strBytes "\"version\":" ++ renderNat m.version ++
        (44 :: strBytes "\"id\":") ++ renderNat m.id ++
        (44 :: strBytes "\"payload\":") ++
        (123 :: (jstr (strBytes "Command") ++ (58 :: pc))) ++ [125, 125]))
  | .response r =>
    match encJsonResponse r with
    | none => none
    | some pr =>
      some (123 :: (strBytes "\"version\":" ++ renderNat m.version ++
        (44 :: strBytes "\"id\":") ++ renderNat m.id ++
        (44 :: strBytes "\"payload\":") ++
        (123 :: (jstr (strBytes "Response") ++ (58 :: pr))) ++ [125, 125]))

/-- Modelled from the spec: `deserialize_json` — `serde_json::from_str`
requires the whole input to be consumed. -/
def deserializeJson (l : List Nat) : Option ProtocolMessage :=
  match dropLit (123 :: strBytes "\"version\":") l with
  | none => none
  | some r =>
    match parseJsonNat r with
    | none => none
    | some (v, r1) =>
      match dropLit (44 :: strBytes "\"id\":") r1 with
      | none => none
      | some r2 =>
        match parseJsonNat r2 with
        | none => none
        | some (i, r3) =>
          match dropLit (44 :: strBytes "\"payload\":") r3 with
          | none => none
          | some r4 =>
            match r4 with
            | 123 :: r5 =>
              match parseJsonStr r5 with
              | none => none
              | some (tag, r6) =>
                if tag = strBytes "Command" then
                  match r6 with
                  | 58 :: r7 =>
                    match parseJsonCommand r7 with
                    | none => none
                    | some (c, r8) =>
                      match r8 with
                      | [125, 125] => some ⟨v, i, .command c⟩
                      | _ => none
                  | _ => none
                else if tag = strBytes "Response" then
                  match r6 with
                  | 58 :: r7 =>
                    match parseJsonResponse r7 with
                    | none => none
                    | some (rr, r8) =>
                      match r8 with
                      | [125, 125] => some ⟨v, i, .response rr⟩
                      | _ => none
                  | _ => none
                else none
            | _ => none

/-- JSON round trip for whole protocol messages. -/
theorem deserializeJson_serializeJson (m : ProtocolMessage) (b : List Nat)
    (h : serializeJson m = some b) : deserializeJson b = some m := by
  obtain ⟨v, i, p⟩ := m
  cases p with
  | command c =>
    simp only [serializeJson] at h
    cases hc : encJsonCommand c with
    | none => rw [hc] at h; exact absurd h (by simp)
    | some pc =>
    rw [hc] at h
    simp only [Option.some.injEq] at h
    subst h
    have q1 := parseJsonCommand_enc c pc hc
    simp only [deserializeJson, List.cons_append, List.append_assoc,
      List.nil_append, dropLit_cons, dropLit_self_append, parseJsonNat_enc,
      isDigitB_44, parseJsonStr_enc, q1,
      if_pos (Eq.refl (strBytes "Command")), if_true]
  | response r =>
    simp only [serializeJson] at h
    cases hr : encJsonResponse r with
    | none => rw [hr] at h; exact absurd h (by simp)
    | some pr =>
    rw [hr] at h
    simp only [Option.some.injEq] at h
    subst h
    have hne : strBytes "Response" ≠ strBytes "Command" := by decide
    have q1 := parseJsonResponse_enc r pr hr
    simp only [deserializeJson, List.cons_append, List.append_assoc,
      List.nil_append, dropLit_cons, dropLit_self_append, parseJsonNat_enc,
      isDigitB_44, parseJsonStr_enc, q1, if_neg hne,
      if_pos (Eq.refl (strBytes "Response")), if_true]

/-! ## Claims C3 and C8 -/

/-- Concrete witness message for the round trip: a `GetStatus` command. -/
def mW : ProtocolMessage := ⟨1, 7, .command .getStatus⟩

/-- JSON bytes of `mW`. -/
def jW : List Nat := [
    123, 34, 118, 101, 114, 115, 105, 111, 110, 34, 58, 49, 44, 34, 105, 100, 34, 58,
    55, 44, 34, 112, 97, 121, 108, 111, 97, 100, 34, 58, 123, 34, 67, 111, 109, 109,
    97, 110, 100, 34, 58, 34, 71, 101, 116, 83, 116, 97, 116, 117, 115, 34, 125, 125]

/-- Postcard bytes of `mW`. -/
def bW : List Nat := [1, 7, 0, 0]

/-- The representative message of `test_binary_vs_json_size`: a `GetHistory`
command with a long sensor identifier and `last_n = 100`, id 12345. -/
def mRep : ProtocolMessage :=
  ⟨1, 12345, .command (.getHistory
    (strBytes "temp_sensor_with_very_long_name_for_testing") 100)⟩

/-- JSON bytes of `mRep` (134 bytes). -/
def jRep : List Nat := [
    123, 34, 118, 101, 114, 115, 105, 111, 110, 34, 58, 49, 44, 34, 105, 100, 34, 58,
    49, 50, 51, 52, 53, 44, 34, 112, 97, 121, 108, 111, 97, 100, 34, 58, 123, 34,
    67, 111, 109, 109, 97, 110, 100, 34, 58, 123, 34, 71, 101, 116, 72, 105, 115, 116,
    111, 114, 121, 34, 58, 123, 34, 115, 101, 110, 115, 111, 114, 95, 105, 100, 34, 58,
    34, 116, 101, 109, 112, 95, 115, 101, 110, 115, 111, 114, 95, 119, 105, 116, 104, 95,
    118, 101, 114, 121, 95, 108, 111, 110, 103, 95, 110, 97, 109, 101, 95, 102, 111, 114,
    95, 116, 101, 115, 116, 105, 110, 103, 34, 44, 34, 108, 97, 115, 116, 95, 110, 34,
    58, 49, 48, 48, 125, 125, 125, 125]

/-- Postcard bytes of `mRep` (50 bytes). -/
def bRep : List Nat := [
    1, 185, 96, 0, 3, 43, 116, 101, 109, 112, 95, 115, 101, 110, 115, 111, 114, 95,
    119, 105, 116, 104, 95, 118, 101, 114, 121, 95, 108, 111, 110, 103, 95, 110, 97, 109,
    101, 95, 102, 111, 114, 95, 116, 101, 115, 116, 105, 110, 103, 100]

theorem renderNat_one : renderNat 1 = [49] := by simp [renderNat]

theorem renderNat_seven : renderNat 7 = [55] := by simp [renderNat]

theorem renderNat_hundred : renderNat 100 = [49, 48, 48] := by simp [renderNat]

theorem renderNat_12345 : renderNat 12345 = [49, 50, 51, 52, 53] := by
  simp [renderNat]

theorem encVarint_zero : encVarint 0 = [0] := by simp [encVarint]

theorem encVarint_three : encVarint 3 = [3] := by simp [encVarint]

theorem encVarint_seven : encVarint 7 = [7] := by simp [encVarint]

theorem encVarint_43 : encVarint 43 = [43] := by simp [encVarint]

theorem encVarint_hundred : encVarint 100 = [100] := by simp [encVarint]

theorem encVarint_12345 : encVarint 12345 = [185, 96] := by
  simp [encVarint]

theorem strBytes_longSid_length :
    (strBytes "temp_sensor_with_very_long_name_for_testing").length = 43 := by
  rfl

theorem serializeJson_mW : serializeJson mW = some jW := by
  simp only [serializeJson, mW, encJsonCommand, renderNat_one, renderNat_seven]
  rfl

theorem serializeBinary_mW : serializeBinary mW = some bW := by
  simp only [serializeBinary, mW, encBinCommand, encVarint_zero, encVarint_seven]
  rfl

theorem serializeJson_mRep : serializeJson mRep = some jRep := by
  simp only [serializeJson, mRep, encJsonCommand, renderNat_one,
    renderNat_12345, renderNat_hundred]
  rfl

theorem serializeBinary_mRep : serializeBinary mRep = some bRep := by
  simp only [serializeBinary, mRep, encBinCommand, encBinStr,
    strBytes_longSid_length, encVarint_zero, encVarint_three,
    encVarint_43, encVarint_hundred, encVarint_12345]
  rfl

theorem jRep_length : jRep.length = 134 := by rfl

theorem bRep_length : bRep.length = 50 := by rfl

/-- C3: encoding any `ProtocolMessage` with either wire codec (textual JSON
via `serializeJson`, or compact binary via `serializeBinary`) and decoding
the result with the matching decoder reproduces the original message,
field for field. -/
theorem json_binary_round_trip_c3 (m : ProtocolMessage) (s b : List Nat) :
    (serializeJson m = some s → deserializeJson s = some m) ∧
    (serializeBinary m = some b → deserializeBinary b = some m) :=
  ⟨fun h => deserializeJson_serializeJson m s h,
   fun h => deserializeBinary_serializeBinary m b h⟩

theorem json_binary_round_trip_c3_witness :
    deserializeJson jW = some mW ∧ deserializeBinary bW = some mW :=
  ⟨(json_binary_round_trip_c3 mW jW bW).1 serializeJson_mW,
   (json_binary_round_trip_c3 mW jW bW).2 serializeBinary_mW⟩

/-- C8: for the representative payload (a `GetHistory` command with a long
sensor id and `last_n = 100`), the binary encoding is strictly smaller
than the textual encoding, by at least 30% of the textual size. -/
theorem binary_smaller_c8 :
    ∃ j b : List Nat, serializeJson mRep = some j ∧ serializeBinary mRep = some b ∧
      b.length < j.length ∧ 10 * (j.length - b.length) ≥ 3 * j.length := by
  refine ⟨jRep, bRep, serializeJson_mRep, serializeBinary_mRep, ?_, ?_⟩
  · rw [jRep_length, bRep_length]
    decide
  · rw [jRep_length, bRep_length]
    decide

end TempSys
